import Mathlib

/-!
# pppoe.c, a PPP-over-Ethernet redirector: embedding and verified properties

The definitions below transcribe `src/pppoe.c` (the `__linux__` field names are used; the
BSD branch differs only in names).

Conventions of the embedding.

* An octet is a `Nat`.  A raw buffer reached through a pointer (`unsigned char *buf`, the
  memory after a packet header) is a function `Nat → Nat` from the offset to the octet
  stored there, so that reads past the count handed to the function see whatever the
  memory holds; a `(pointer, length)` pair that is only read front to back is a `List Nat`.
* `int` values are `Int` where they can become negative (`bufsize` in `create_sess`) and
  `Nat` otherwise.
* The 16-bit fields kept in network order (`h_proto`, `length`) are modelled by the number
  their two octets spell on the wire, so `htons` and `ntohs` only truncate to 16 bits.
  The bit-fields `ver`, `type`, `code`, `session` are the values the C expressions
  `p->ver`, ... read; their octet layout is implementation defined and not modelled.
* `sizeof(struct pppoe_packet)` is 20 and `sizeof(struct pppoe_tag)` is 4.
* `log_file` is `NULL` unless the option `-L` opened it.  The log calls guarded by
  `opt_verbose` leave no trace in the model; the unguarded calls `fprintf(log_file, ...)`
  (lines 1027, 1040, 1203, 1236, 1245) are modelled through a flag `log_open`: with
  `log_file` open they only log, with `log_file` `NULL` the behaviour is undefined and
  the process is taken to die at the call.
-/

namespace Pppoe

/-! ## Constants and data model -/

/-- Size used for every packet buffer (`#define PACKETBUF 4096`). -/
def PACKETBUF : Nat := 4096

/-- EtherType of the discovery stage. -/
def ETH_P_PPPOE_DISC : Nat := 0x8863

/-- EtherType of the session stage. -/
def ETH_P_PPPOE_SESS : Nat := 0x8864

/-- An Ethernet hardware address: the six octets of a `char[ETH_ALEN]`. -/
structure MAC where
  o0 : Nat
  o1 : Nat
  o2 : Nat
  o3 : Nat
  o4 : Nat
  o5 : Nat
deriving DecidableEq, Repr

/-- Ethernet broadcast address (`MAC_BCAST_ADDR`). -/
def MAC_BCAST_ADDR : MAC := ⟨0xff, 0xff, 0xff, 0xff, 0xff, 0xff⟩

/-- The header `struct pppoe_packet` (Ethernet header and PPPoE header); the payload
follows it in memory and is carried separately. -/
structure pppoe_packet where
  h_dest : MAC
  h_source : MAC
  h_proto : Nat
  ver : Nat
  type : Nat
  code : Nat
  session : Nat
  length : Nat
deriving DecidableEq, Repr

/-- Value of `sizeof(struct pppoe_packet)`: 14 + 4 + 2 octets. -/
def sizeof_pppoe_packet : Nat := 20

/-- Value of `sizeof(struct pppoe_tag)`: two 16-bit fields. -/
def sizeof_pppoe_tag : Nat := 4

/-- Maximum payload length (`#define MAX_PAYLOAD (1484 - sizeof(struct pppoe_packet))`). -/
def MAX_PAYLOAD : Nat := 1484 - sizeof_pppoe_packet

def CODE_SESS : Nat := 0x00
def CODE_PADI : Nat := 0x09
def CODE_PADO : Nat := 0x07
def CODE_PADR : Nat := 0x19
def CODE_PADS : Nat := 0x65
def CODE_PADT : Nat := 0xa7

def TAG_SERVICE_NAME : Nat := 0x0101

/-- Host to network order on a 16-bit value (see the conventions above). -/
def htons (x : Nat) : Nat := x % 65536

/-- Network to host order on a 16-bit value. -/
def ntohs (x : Nat) : Nat := x % 65536

/-- The two octets a 16-bit network-order field occupies in memory, first octet first. -/
def be16 (x : Nat) : List Nat := [x / 256 % 256, x % 256]

/-- The octets a buffer holds at offsets `0 .. n-1`. -/
def octets (buf : Nat → Nat) (n : Nat) : List Nat := (List.range n).map buf

/-- The memory seen through a pointer to a buffer that holds `X` and is followed by the
octets `rest` (stale contents of the array behind the data). -/
def mem (X : List Nat) (rest : Nat → Nat) : Nat → Nat :=
  fun i => if h : i < X.length then X.get ⟨i, h⟩ else rest (i - X.length)

/-! ## PPP FCS-16 -/

/-- The table `fcstab[256]`. -/
def fcstab : List Nat := [
  0x0000, 0x1189, 0x2312, 0x329b, 0x4624, 0x57ad, 0x6536, 0x74bf,
  0x8c48, 0x9dc1, 0xaf5a, 0xbed3, 0xca6c, 0xdbe5, 0xe97e, 0xf8f7,
  0x1081, 0x0108, 0x3393, 0x221a, 0x56a5, 0x472c, 0x75b7, 0x643e,
  0x9cc9, 0x8d40, 0xbfdb, 0xae52, 0xdaed, 0xcb64, 0xf9ff, 0xe876,
  0x2102, 0x308b, 0x0210, 0x1399, 0x6726, 0x76af, 0x4434, 0x55bd,
  0xad4a, 0xbcc3, 0x8e58, 0x9fd1, 0xeb6e, 0xfae7, 0xc87c, 0xd9f5,
  0x3183, 0x200a, 0x1291, 0x0318, 0x77a7, 0x662e, 0x54b5, 0x453c,
  0xbdcb, 0xac42, 0x9ed9, 0x8f50, 0xfbef, 0xea66, 0xd8fd, 0xc974,
  0x4204, 0x538d, 0x6116, 0x709f, 0x0420, 0x15a9, 0x2732, 0x36bb,
  0xce4c, 0xdfc5, 0xed5e, 0xfcd7, 0x8868, 0x99e1, 0xab7a, 0xbaf3,
  0x5285, 0x430c, 0x7197, 0x601e, 0x14a1, 0x0528, 0x37b3, 0x263a,
  0xdecd, 0xcf44, 0xfddf, 0xec56, 0x98e9, 0x8960, 0xbbfb, 0xaa72,
  0x6306, 0x728f, 0x4014, 0x519d, 0x2522, 0x34ab, 0x0630, 0x17b9,
  0xef4e, 0xfec7, 0xcc5c, 0xddd5, 0xa96a, 0xb8e3, 0x8a78, 0x9bf1,
  0x7387, 0x620e, 0x5095, 0x411c, 0x35a3, 0x242a, 0x16b1, 0x0738,
  0xffcf, 0xee46, 0xdcdd, 0xcd54, 0xb9eb, 0xa862, 0x9af9, 0x8b70,
  0x8408, 0x9581, 0xa71a, 0xb693, 0xc22c, 0xd3a5, 0xe13e, 0xf0b7,
  0x0840, 0x19c9, 0x2b52, 0x3adb, 0x4e64, 0x5fed, 0x6d76, 0x7cff,
  0x9489, 0x8500, 0xb79b, 0xa612, 0xd2ad, 0xc324, 0xf1bf, 0xe036,
  0x18c1, 0x0948, 0x3bd3, 0x2a5a, 0x5ee5, 0x4f6c, 0x7df7, 0x6c7e,
  0xa50a, 0xb483, 0x8618, 0x9791, 0xe32e, 0xf2a7, 0xc03c, 0xd1b5,
  0x2942, 0x38cb, 0x0a50, 0x1bd9, 0x6f66, 0x7eef, 0x4c74, 0x5dfd,
  0xb58b, 0xa402, 0x9699, 0x8710, 0xf3af, 0xe226, 0xd0bd, 0xc134,
  0x39c3, 0x284a, 0x1ad1, 0x0b58, 0x7fe7, 0x6e6e, 0x5cf5, 0x4d7c,
  0xc60c, 0xd785, 0xe51e, 0xf497, 0x8028, 0x91a1, 0xa33a, 0xb2b3,
  0x4a44, 0x5bcd, 0x6956, 0x78df, 0x0c60, 0x1de9, 0x2f72, 0x3efb,
  0xd68d, 0xc704, 0xf59f, 0xe416, 0x90a9, 0x8120, 0xb3bb, 0xa232,
  0x5ac5, 0x4b4c, 0x79d7, 0x685e, 0x1ce1, 0x0d68, 0x3ff3, 0x2e7a,
  0xe70e, 0xf687, 0xc41c, 0xd595, 0xa12a, 0xb0a3, 0x8238, 0x93b1,
  0x6b46, 0x7acf, 0x4854, 0x59dd, 0x2d62, 0x3ceb, 0x0e70, 0x1ff9,
  0xf78f, 0xe606, 0xd49d, 0xc514, 0xb1ab, 0xa022, 0x92b9, 0x8330,
  0x7bc7, 0x6a4e, 0x58d5, 0x495c, 0x3de3, 0x2c6a, 0x1ef1, 0x0f78]

/-- Initial FCS value. -/
def PPPINITFCS16 : Nat := 0xffff

/-- Good final FCS value. -/
def PPPGOODFCS16 : Nat := 0xf0b8

/-- One pass of the body of the loop of `pppfcs16`:
`fcs = (fcs >> 8) ^ fcstab[(fcs ^ *cp++) & 0xff]`, stored in an `unsigned short`. -/
def pppfcs16_step (fcs c : Nat) : Nat :=
  ((fcs >>> 8) ^^^ fcstab.getD ((fcs ^^^ c) &&& 0xff) 0) % 65536

/-- The function `pppfcs16(fcs, cp, len)`: a new fcs from the current fcs and the `len`
octets `cp`.  The parameter `fcs` is an `unsigned short`. -/
def pppfcs16 (fcs : Nat) (cp : List Nat) : Nat :=
  cp.foldl pppfcs16_step (fcs % 65536)

/-! ## HDLC encoder -/

def FRAME_ESC : Nat := 0x7d
def FRAME_FLAG : Nat := 0x7e
def FRAME_ADDR : Nat := 0xff
def FRAME_CTL : Nat := 0x03
def FRAME_ENC : Nat := 0x20

/-- The stuffing loops of `encode_ppp` (the one over `buf` and the one over `tail` have
the same body): the octets `ADD_OUT` stores for the given octets. -/
def encode_loop : List Nat → List Nat
  | [] => []
  | c :: cs =>
    (if c = FRAME_FLAG ∨ c = FRAME_ESC ∨ c < 0x20 then [FRAME_ESC, c ^^^ FRAME_ENC]
     else [c]) ++ encode_loop cs

/-- The value of `fcs` after lines 700-703 of `encode_ppp`:
`fcs = pppfcs16(PPPINITFCS16, header, 2); fcs = pppfcs16(fcs, buf, len) ^ 0xffff;`
with `header = {FRAME_ADDR, FRAME_CTL}`, stored in an `unsigned short`. -/
def encode_ppp_fcs (buf : List Nat) : Nat :=
  let header := [FRAME_ADDR, FRAME_CTL]
  let fcs := pppfcs16 PPPINITFCS16 header
  (pppfcs16 fcs buf ^^^ 0xffff) % 65536

/-- The function `encode_ppp(fd, buf, len)`.  `first` is the value of its `static int
first` on entry and `buf` the `len` octets read.  The result is the sequence of octets
stored through `ADD_OUT` (the `n` octets then given to `write`) and the value of `first`
on exit.  That the sequence fits `out_buf[PACKETBUF]` is a separate obligation. -/
def encode_ppp (first : Nat) (buf : List Nat) : List Nat × Nat :=
  let fcs := encode_ppp_fcs buf
  let tail := [fcs &&& 0x00ff, (fcs >>> 8) &&& 0x00ff]
  let out := if first = 0 then [FRAME_FLAG] else []
  let first := if first = 0 then 1 else first
  let out := out ++ [FRAME_ADDR, FRAME_ESC, FRAME_CTL ^^^ FRAME_ENC]
  let out := out ++ encode_loop buf
  let out := out ++ encode_loop tail
  let out := out ++ [FRAME_FLAG]
  (out, first)

/-! ## Packet constructors -/

/-- A frame as a constructor leaves it in the packet buffer: the header and the octets
written after it. -/
structure frame where
  hdr : pppoe_packet
  payload : List Nat
deriving DecidableEq, Repr

/-- The function `create_padi(packet, src, name)`.  `packet_null` tells whether `packet`
is `NULL`; `name` is `none` for `NULL`, else the characters of the string (`strlen` is
their number).  Returns the `int` result and the frame written. -/
def create_padi (packet_null : Bool) (src : MAC) (name : Option (List Nat)) :
    Nat × Option frame :=
  if packet_null then (0, none)
  else
    let size := sizeof_pppoe_packet + sizeof_pppoe_tag
    let size := match name with
      | some s => size + s.length
      | none => size
    let hdr : pppoe_packet :=
      { h_dest := MAC_BCAST_ADDR
        h_source := src
        h_proto := htons ETH_P_PPPOE_DISC
        ver := 1
        type := 1
        code := CODE_PADI
        session := 0
        length := htons (size - sizeof_pppoe_packet) }
    let tag_type := be16 (htons TAG_SERVICE_NAME)
    let tag_length := match name with
      | some s => be16 (htons s.length)
      | none => be16 0
    let value := match name with
      | some s => s
      | none => []
    (size, some ⟨hdr, tag_type ++ tag_length ++ value⟩)

/-- The function `create_padr(packet, src, dst, name)`.  The frame returned holds the
`size` octets of the PADR and the 14 octets cleared by the final `memset`. -/
def create_padr (packet_null : Bool) (src dst : MAC) (name : Option (List Nat)) :
    Nat × Option frame :=
  if packet_null then (0, none)
  else
    let size := sizeof_pppoe_packet + sizeof_pppoe_tag
    let size := match name with
      | some s => size + s.length
      | none => size
    let hdr : pppoe_packet :=
      { h_dest := dst
        h_source := src
        h_proto := htons ETH_P_PPPOE_DISC
        ver := 1
        type := 1
        code := CODE_PADR
        session := 0
        length := htons (size - sizeof_pppoe_packet) }
    let tag_type := be16 (htons TAG_SERVICE_NAME)
    let tag_length := match name with
      | some s => be16 (htons s.length)
      | none => be16 0
    let value := match name with
      | some s => s
      | none => []
    (size, some ⟨hdr, tag_type ++ tag_length ++ value ++ List.replicate 14 0⟩)

/-! ## HDLC decoder and session frame constructor -/

/-- The search loop of `create_sess`,
`while (*buf++ != FRAME_FLAG && bufsize != 0) bufsize--;`, with the pointer kept as an
offset `p` into `buf`.  Returns the offset and `bufsize` after the loop.  The first
argument bounds the number of passes; `bufsize + 1` passes are enough when
`bufsize ≥ 0`. -/
def search_flag (buf : Nat → Nat) : Nat → Nat → Int → Nat × Int
  | 0, p, bufsize => (p, bufsize)
  | fuel + 1, p, bufsize =>
    if buf p ≠ FRAME_FLAG ∧ bufsize ≠ 0 then search_flag buf fuel (p + 1) (bufsize - 1)
    else (p + 1, bufsize)

/-- The unstuffing loop of `create_sess`,
`for (i = ...; i < bufsize - 1; i++) if (buf[i] == FRAME_ESC) buf[o++] = buf[++i] ^ FRAME_ENC; else buf[o++] = buf[i];`
which rewrites `buf` in place.  `bound` is `bufsize - 1`.  Returns the buffer, `i` and `o`
after the loop.  The first argument bounds the number of passes; `bound - i` passes are
enough. -/
def unstuff_loop (bound : Int) : Nat → (Nat → Nat) → Nat → Nat → (Nat → Nat) × Nat × Nat
  | 0, buf, i, o => (buf, i, o)
  | fuel + 1, buf, i, o =>
    if (i : Int) < bound then
      if buf i = FRAME_ESC then
        unstuff_loop bound fuel (Function.update buf o (buf (i + 1) ^^^ FRAME_ENC)) (i + 2) (o + 1)
      else
        unstuff_loop bound fuel (Function.update buf o (buf i)) (i + 1) (o + 1)
    else (buf, i, o)

/-- What a call of `create_sess` leaves behind. -/
inductive sess_result where
  /-- The call returned 0 before touching `packet`. -/
  | zero : sess_result
  /-- The call filled `packet` and returned `size`; `plen` is the count given to the
  final `memcpy` (`bufsize` after `bufsize = o - 2`) and `payload` the octets it copies
  after the header.  A negative `plen` (which C turns into a huge `size_t`) is kept as
  such, with no octets copied. -/
  | built (size : Int) (hdr : pppoe_packet) (plen : Int) (payload : List Nat) : sess_result

/-- The `int` returned by `create_sess`. -/
def sess_result.ret : sess_result → Int
  | .zero => 0
  | .built size _ _ _ => size

/-- The part of `create_sess` from the unstuffing loop on (lines 769-800), run on the
buffer and count the first part leaves. -/
def create_sess_build (packet_null : Bool) (src dst : MAC) (buf : Nat → Nat)
    (bufsize : Int) (sess : Nat) : sess_result :=
  let start := if buf 0 = FRAME_FLAG then 4 else 3
  let r := unstuff_loop (bufsize - 1) bufsize.toNat buf start 0
  let buf := r.1
  let o := r.2.2
  let bufsize : Int := (o : Int) - 2
  if packet_null then sess_result.zero
  else
    let size : Int := (sizeof_pppoe_packet : Int) + bufsize
    let hdr : pppoe_packet :=
      { h_dest := dst
        h_source := src
        h_proto := htons ETH_P_PPPOE_SESS
        ver := 1
        type := 1
        code := CODE_SESS
        session := sess % 65536
        length := htons ((size - (sizeof_pppoe_packet : Int)) % 65536).toNat }
    sess_result.built size hdr bufsize (octets buf bufsize.toNat)

/-- The function `create_sess(packet, src, dst, buf, bufsize, sess)` under the globals
`opt_fwd` and `opt_fwd_search`. -/
def create_sess (opt_fwd opt_fwd_search : Bool) (packet_null : Bool) (src dst : MAC)
    (buf : Nat → Nat) (bufsize : Int) (sess : Nat) : sess_result :=
  if opt_fwd = true ∨ ¬ (buf 0 = FRAME_FLAG ∨ buf 0 = FRAME_ADDR) then
    if opt_fwd_search = true then
      let r := search_flag buf (bufsize.toNat + 1) 0 bufsize
      if r.2 = 0 then sess_result.zero
      else create_sess_build packet_null src dst (fun i => buf (r.1 + i)) r.2 sess
    else sess_result.zero
  else create_sess_build packet_null src dst buf bufsize sess

/-! ## The two relay loops -/

/-- What one pass of the loop of `sess_handler` does: the octets written to file
descriptor 1 (`none` when nothing is written), the state of `encode_ppp` after the pass,
and whether the pass reached a call `fprintf(log_file, ...)` while `log_file` is `NULL`,
where the behaviour is undefined and the process is taken to die. -/
structure sess_pass where
  written : Option (List Nat)
  first : Nat
  died : Bool
deriving DecidableEq, Repr

/-- One pass of the loop of `sess_handler` (without `BUGGY_AC`) on a frame that
`read_packet` delivered: `packet` is its header and `data` the memory after the header.
`dst_addr` and `session` are the globals, `first` the state of `encode_ppp`, and
`log_open` tells whether `log_file` is an open stream (it is `NULL` unless the option
`-L` was given).  The two tests that log (lines 1027 and 1040) call `fprintf(log_file,
...)` without a guard before they `continue`. -/
def sess_handler_pass (log_open : Bool) (dst_addr : MAC) (session : Nat) (first : Nat)
    (packet : pppoe_packet) (data : Nat → Nat) : sess_pass :=
  if packet.h_source ≠ dst_addr then ⟨none, first, false⟩
  else if packet.session ≠ session then ⟨none, first, false⟩
  else if packet.h_proto ≠ htons ETH_P_PPPOE_SESS then ⟨none, first, !log_open⟩
  else if packet.code ≠ CODE_SESS then ⟨none, first, !log_open⟩
  else
    let r := encode_ppp first (octets data (ntohs packet.length))
    ⟨some r.1, r.2, false⟩

/-- What one pass of the loop of `pppd_handler` does. -/
inductive pppd_result where
  /-- The read failed: `exit(1)`. -/
  | exit (status : Nat) : pppd_result
  /-- The pass ends in `continue`; nothing is sent. -/
  | skip : pppd_result
  /-- The frame in `packet` is given to `send_packet` with length `pkt_size`. -/
  | send (hdr : pppoe_packet) (payload : List Nat) (pkt_size : Int) : pppd_result

/-- One pass of the loop of `pppd_handler`: `len` is the result of `read(0, buf, ...)` and
`buf` the buffer after it.  The packet buffer is never `NULL` there. -/
def pppd_handler_pass (opt_fwd opt_fwd_search : Bool) (src_addr dst_addr : MAC)
    (session : Nat) (buf : Nat → Nat) (len : Int) : pppd_result :=
  if len < 0 then pppd_result.exit 1
  else if len = 0 then pppd_result.skip
  else
    match create_sess opt_fwd opt_fwd_search false src_addr dst_addr buf len session with
    | .zero => pppd_result.skip
    | .built pkt_size hdr _ payload =>
      if pkt_size = 0 then pppd_result.skip else pppd_result.send hdr payload pkt_size

/-! ## Discovery in `main` -/

/-- Where `main` stands: in the loop waiting for PADO (lines 1200-1206), in the loop
waiting for PADS (1224-1238), in the final loop with both handlers running (1270-1281),
gone through `exit`, or dead at a call `fprintf(log_file, ...)` made while `log_file` is
`NULL`. -/
inductive phase where
  | WAIT_PADO : phase
  | WAIT_PADS : phase
  | RUN : phase
  | EXITED (status : Nat) : phase
  | CRASHED : phase
deriving DecidableEq, Repr

/-- The globals `main` works on, with the place it stands at. -/
structure main_state where
  at_phase : phase
  src_addr : MAC
  dst_addr : MAC
  session : Nat
deriving DecidableEq, Repr

/-- The calls of `main` that act on the outside. -/
inductive action where
  /-- The call `send_packet(disc_sock, packet, len, if_name)`: `f` is the packet buffer up
  to `len` octets. -/
  | send (f : frame) (len : Nat) : action
  /-- The call `open_interface(if_name, ETH_P_PPPOE_SESS, NULL)`. -/
  | open_sess : action
  /-- The `fork` whose child runs `sess_handler`. -/
  | fork_sess_handler : action
  /-- The `fork` whose child runs `pppd_handler`. -/
  | fork_pppd_handler : action
  /-- The call `cleanup_and_exit(status)` or `exit(status)`. -/
  | exit (status : Nat) : action
  /-- A call `fprintf(log_file, ...)` made while `log_file` is `NULL`: the behaviour is
  undefined and the process is taken to die there. -/
  | crash : action
deriving DecidableEq, Repr

/-- Lines 1189-1198 of `main`: build and send the PADI.  `src_addr` is the address
`open_interface` stored; `dst_addr` and `session` still hold their initial zeros.  Sends
and forks are taken to succeed (their failure paths end in `exit(1)`). -/
def main_start (src_addr : MAC) : main_state × List action :=
  let s : main_state := ⟨phase.WAIT_PADO, src_addr, ⟨0, 0, 0, 0, 0, 0⟩, 0⟩
  match create_padi false src_addr none with
  | (_, none) => ({ s with at_phase := phase.EXITED 1 }, [action.exit 1])
  | (pkt_size, some f) =>
    if pkt_size = 0 then ({ s with at_phase := phase.EXITED 1 }, [action.exit 1])
    else (s, [action.send f pkt_size])

/-- What `main` does with one frame that `read_packet` delivers on `disc_sock`, from the
place it stands at.  `log_open` tells whether `log_file` is an open stream (it is `NULL`
unless the option `-L` was given): the bodies of the two wait loops (lines 1203 and 1236)
and the failure path of the session socket (line 1245) call `fprintf(log_file, ...)`
without a guard.  `open_ok` tells whether `open_interface` for the session socket
succeeds when it is called. -/
def main_step (log_open open_ok : Bool) (s : main_state) (packet : pppoe_packet) :
    main_state × List action :=
  match s.at_phase with
  | phase.WAIT_PADO =>
    if packet.code ≠ CODE_PADO ∧ packet.code ≠ CODE_PADT then
      if log_open = true then (s, [])
      else ({ s with at_phase := phase.CRASHED }, [action.crash])
    else
      let s := { s with dst_addr := packet.h_source }
      match create_padr false s.src_addr s.dst_addr none with
      | (_, none) => ({ s with at_phase := phase.EXITED 1 }, [action.exit 1])
      | (pkt_size, some f) =>
        if pkt_size = 0 then ({ s with at_phase := phase.EXITED 1 }, [action.exit 1])
        else ({ s with at_phase := phase.WAIT_PADS }, [action.send f (pkt_size + 14)])
  | phase.WAIT_PADS =>
    if packet.h_source ≠ s.dst_addr then
      if packet.code ≠ CODE_PADS ∧ packet.code ≠ CODE_PADT then
        if log_open = true then (s, [])
        else ({ s with at_phase := phase.CRASHED }, [action.crash])
      else (s, [])
    else if packet.code = CODE_PADT then
      ({ s with at_phase := phase.EXITED 0 }, [action.exit 0])
    else
      let s := { s with session := packet.session }
      if open_ok = true then
        ({ s with at_phase := phase.RUN },
          [action.open_sess, action.fork_sess_handler, action.fork_pppd_handler])
      else if log_open = true then
        ({ s with at_phase := phase.EXITED 1 }, [action.open_sess, action.exit 1])
      else ({ s with at_phase := phase.CRASHED }, [action.open_sess, action.crash])
  | phase.RUN =>
    if packet.code = CODE_PADT then ({ s with at_phase := phase.EXITED 1 }, [action.exit 1])
    else (s, [])
  | phase.EXITED _ => (s, [])
  | phase.CRASHED => (s, [])

/-- The function `main_step` over the frames delivered one after the other: the final
state and all actions in order. -/
def main_frames (log_open open_ok : Bool) :
    main_state → List pppoe_packet → main_state × List action
  | s, [] => (s, [])
  | s, p :: ps =>
    let r := main_step log_open open_ok s p
    let r2 := main_frames log_open open_ok r.1 ps
    (r2.1, r.2 ++ r2.2)

/-- Which frames on the wire the Discovery handle hands to `read_packet`.
`open_interface(if_name, ETH_P_PPPOE_DISC, src_addr)` makes the handle for one EtherType:
on Linux it creates the socket with `socket(PF_INET, SOCK_PACKET, htons(type))`, so the
kernel queues only frames of that EtherType on it; under `USE_BPF` it installs the filter
program `filt` (lines 346-367) with `filt[1].k = type`, whose first two instructions load
the half word at offset 12 and compare it with `type` (`check type`), and which returns 0
(drop) when they differ.  The further tests of the BPF branch (own source address,
destination) are not modelled: they only remove more frames. -/
def disc_delivers (packet : pppoe_packet) : Bool :=
  decide (packet.h_proto = htons ETH_P_PPPOE_DISC)

/-- What `main` does with one frame that arrives on the wire while it reads the
Discovery handle: a frame the handle does not deliver is never seen by `read_packet`,
any other frame is handled by `main_step`. -/
def main_recv (log_open open_ok : Bool) (s : main_state) (packet : pppoe_packet) :
    main_state × List action :=
  if disc_delivers packet = true then main_step log_open open_ok s packet else (s, [])

/-! ## Definitions that follow the words of the specification -/

/-- Stuffing rule of the specification: an octet equal to FLAG, ESC or below 0x20 is sent
as ESC followed by the octet XOR 0x20, any other octet unchanged. -/
def spec_stuff (b : Nat) : List Nat :=
  if b = 0x7E ∨ b = 0x7D ∨ b < 0x20 then [0x7D, b ^^^ 0x20] else [b]

/-- The stuffed sequence for a run of octets, in order. -/
def spec_stuff_all : List Nat → List Nat
  | [] => []
  | b :: bs => spec_stuff b ++ spec_stuff_all bs

/-- The transmitted FCS of the specification: the FCS-16 over ADDR, CTL and the payload
with initial value 0xFFFF, complemented (on 16 bits). -/
def spec_fcs (P : List Nat) : Nat := 0xFFFF - pppfcs16 0xFFFF ([0xFF, 0x03] ++ P)

/-- The wire format of the specification for one encode: a FLAG only on the first encode,
the stuffed ADDR, CTL, payload octets and FCS octets (low byte first), a closing FLAG. -/
def spec_wire (first_encode : Bool) (P : List Nat) : List Nat :=
  (if first_encode = true then [0x7E] else []) ++ spec_stuff 0xFF ++ spec_stuff 0x03
    ++ spec_stuff_all P ++ spec_stuff (spec_fcs P % 256) ++ spec_stuff (spec_fcs P / 256)
    ++ [0x7E]

/-- An HDLC content that carries the octets given: each octet is either written as it is
or, when the mask asks for it or the octet is ESC, as ESC followed by the octet XOR 0x20.
A mask shorter than the octets counts as `false` from its end on. -/
def hdlc_escape : List Bool → List Nat → List Nat
  | _, [] => []
  | m, c :: cs =>
    (if m.headD false = true ∨ c = 0x7D then [0x7D, c ^^^ 0x20] else [c])
      ++ hdlc_escape m.tail cs

/-- The tag list of the specification parser: repeatedly read a 4-octet tag header (type
and length, big-endian) and the value of that length, up to the end of the payload. -/
def spec_tags : Nat → List Nat → List (Nat × Nat × List Nat)
  | 0, _ => []
  | fuel + 1, t0 :: t1 :: l0 :: l1 :: rest =>
    (t0 * 256 + t1, l0 * 256 + l1, rest.take (l0 * 256 + l1))
      :: spec_tags fuel (rest.drop (l0 * 256 + l1))
  | _ + 1, _ => []

/-- The Session header the specification asks for: dst = AC MAC, src = local MAC,
EtherType 0x8864, version 1, type 1, code 0x00, the session id and the payload length. -/
def sess_header (src dst : MAC) (sess len : Nat) : pppoe_packet :=
  { h_dest := dst
    h_source := src
    h_proto := 0x8864
    ver := 1
    type := 1
    code := 0x00
    session := sess
    length := len }

/-- The escape mask under which `hdlc_escape` is the stuffing of `encode_ppp`: an octet is
escaped when it is FLAG, ESC or below 0x20. -/
def stuff_mask (Y : List Nat) : List Bool :=
  Y.map (fun c => decide (c = FRAME_FLAG ∨ c = FRAME_ESC ∨ c < 0x20))

/-- The payload octets a call of `create_sess` copies after the header (none when it
returns 0 without building). -/
def sess_result.payload : sess_result → List Nat
  | .zero => []
  | .built _ _ _ payload => payload

/-- What the unstuffing loop of `create_sess` stores when it runs over the octets `R` and
the octet after them in the buffer is `t`: an ESC is dropped and the octet after it stored
XOR 0x20 (for an ESC that ends `R` that octet is `t`), any other octet is stored as it
is. -/
def esc_resolve (t : Nat) : List Nat → List Nat
  | [] => []
  | [c] => if c = 0x7D then [t ^^^ 0x20] else [c]
  | c :: d :: ds =>
    if c = 0x7D then (d ^^^ 0x20) :: esc_resolve t ds else c :: esc_resolve t (d :: ds)

/-- ESC resolution in the words of the specification: an ESC is dropped and the next
octet taken XOR 0x20, literal octets are copied (an ESC with no octet after it is
copied). -/
def spec_resolve : List Nat → List Nat
  | [] => []
  | [c] => [c]
  | c :: d :: ds =>
    if c = 0x7D then (d ^^^ 0x20) :: spec_resolve ds else c :: spec_resolve (d :: ds)

/-- The decoder in the words of the specification: skip a leading FLAG and the two octets
after it, or else the first two octets; resolve ESC sequences over the remaining octets up
to, but not including, the last two octets of the buffer. -/
def spec_decode (X : List Nat) : List Nat :=
  spec_resolve ((X.drop (if X.headD 0 = 0x7E then 3 else 2)).dropLast.dropLast)

/-- The octets the loop of `create_sess` stores for a buffer `X` it takes as a frame:
the first four octets are skipped when `X` starts with FLAG and the first three
otherwise, the last octet of `X` is left out, and ESC sequences are resolved over the
octets in between. -/
def unstuffed (X : List Nat) : List Nat :=
  esc_resolve (X.getLastD 0) ((X.drop (if X.headD 0 = FRAME_FLAG then 4 else 3)).dropLast)

/-! ## FCS-16: bounds and the residual -/

set_option maxRecDepth 100000 in
theorem fcstab_lt : ∀ i, i < 256 → fcstab.getD i 0 < 65536 := by
  decide

theorem pppfcs16_step_lt (fcs c : Nat) : pppfcs16_step fcs c < 65536 :=
  Nat.mod_lt _ (by norm_num)

theorem foldl_step_lt (cp : List Nat) :
    ∀ s, s < 65536 → cp.foldl pppfcs16_step s < 65536 := by
  induction cp with
  | nil => intro s hs; simpa using hs
  | cons c cs ih =>
    intro s _
    simp only [List.foldl_cons]
    exact ih _ (pppfcs16_step_lt s c)

theorem pppfcs16_lt (fcs : Nat) (cp : List Nat) : pppfcs16 fcs cp < 65536 :=
  foldl_step_lt cp _ (Nat.mod_lt _ (by norm_num))

theorem pppfcs16_append (fcs : Nat) (a b : List Nat) :
    pppfcs16 fcs (a ++ b) = pppfcs16 (pppfcs16 fcs a) b := by
  have h : pppfcs16 fcs a % 65536 = pppfcs16 fcs a := Nat.mod_eq_of_lt (pppfcs16_lt fcs a)
  unfold pppfcs16 at h ⊢
  rw [List.foldl_append, h]

theorem and_255 (x : Nat) : x &&& 255 = x % 256 :=
  Nat.and_pow_two_sub_one_eq_mod x 8

theorem shiftRight_xor (a b n : Nat) : (a ^^^ b) >>> n = (a >>> n) ^^^ (b >>> n) := by
  apply Nat.eq_of_testBit_eq
  intro i
  simp [Nat.testBit_shiftRight, Nat.testBit_xor]

theorem xor_ffff_lt (s : Nat) (hs : s < 65536) : s ^^^ 0xffff < 65536 :=
  Nat.xor_lt_two_pow (n := 16) hs (by norm_num)

theorem residual_index (s : Nat) : (s ^^^ ((s ^^^ 0xffff) &&& 0xff)) &&& 0xff = 0xff := by
  rw [Nat.and_xor_distrib_right, Nat.and_assoc, Nat.and_self, Nat.and_xor_distrib_right,
    ← Nat.xor_assoc, Nat.xor_self, Nat.zero_xor]
  rfl

set_option maxRecDepth 100000 in
theorem residual_second : ∀ t, t < 256 →
    pppfcs16_step (((t ^^^ 0x0f78)) % 65536) (t ^^^ 0xff) = 0xf0b8 := by
  decide

theorem residual_two_steps (s : Nat) (hs : s < 65536) :
    pppfcs16_step (pppfcs16_step s ((s ^^^ 0xffff) &&& 0xff)) ((s ^^^ 0xffff) >>> 8)
      = 0xf0b8 := by
  have ht : s >>> 8 < 256 := by
    rw [Nat.shiftRight_eq_div_pow]
    exact Nat.div_lt_of_lt_mul (by simpa using hs)
  have h1 : pppfcs16_step s ((s ^^^ 0xffff) &&& 0xff) = ((s >>> 8) ^^^ 0x0f78) % 65536 := by
    unfold pppfcs16_step
    rw [residual_index]
    rfl
  have h2 : (s ^^^ 0xffff) >>> 8 = (s >>> 8) ^^^ 0xff := by
    rw [shiftRight_xor]
    rfl
  rw [h1, h2]
  exact residual_second _ ht

theorem encode_ppp_fcs_eq (P : List Nat) :
    encode_ppp_fcs P = pppfcs16 (pppfcs16 0xFFFF [0xFF, 0x03]) P ^^^ 0xFFFF := by
  unfold encode_ppp_fcs
  exact Nat.mod_eq_of_lt (xor_ffff_lt _ (pppfcs16_lt _ _))

theorem encode_ppp_fcs_lt (P : List Nat) : encode_ppp_fcs P < 65536 :=
  Nat.mod_lt _ (by norm_num)

theorem xor_ffff_eq_sub (s : Nat) (hs : s < 65536) : s ^^^ 0xffff = 0xffff - s := by
  have hs16 : s < 2 ^ 16 := by simpa using hs
  have e1 : (0xffff : Nat) = 2 ^ 16 - 1 := by norm_num
  have e2 : 0xffff - s = 2 ^ 16 - (s + 1) := by omega
  rw [e2, e1]
  apply Nat.eq_of_testBit_eq
  intro i
  rw [Nat.testBit_xor, Nat.testBit_two_pow_sub_one, Nat.testBit_two_pow_sub_succ hs16]
  by_cases hi : i < 16
  · simp [hi]
  · have hlt : s < 2 ^ i :=
      lt_of_lt_of_le hs16 (Nat.pow_le_pow_right (by norm_num) (by omega))
    simp [hi, Nat.testBit_lt_two_pow hlt]

theorem spec_fcs_eq (P : List Nat) : spec_fcs P = encode_ppp_fcs P := by
  rw [encode_ppp_fcs_eq, ← pppfcs16_append, xor_ffff_eq_sub _ (pppfcs16_lt _ _)]
  rfl

theorem encode_loop_eq_spec (P : List Nat) : encode_loop P = spec_stuff_all P := by
  induction P with
  | nil => rfl
  | cons c cs ih =>
    simp only [encode_loop, spec_stuff_all, spec_stuff, ih, FRAME_FLAG, FRAME_ESC, FRAME_ENC]

/-! ## The unstuffing loop -/

theorem mem_of_lt (X : List Nat) (rest : Nat → Nat) (i : Nat) (h : i < X.length) :
    mem X rest i = X.getD i 0 := by
  unfold mem
  rw [dif_pos h, List.getD_eq_getElem X 0 h]
  rfl

theorem octets_length (buf : Nat → Nat) (n : Nat) : (octets buf n).length = n := by
  simp [octets]

theorem octets_eq_of_getD (buf : Nat → Nat) (Y : List Nat)
    (h : ∀ j, j < Y.length → buf j = Y.getD j 0) : octets buf Y.length = Y := by
  apply List.ext_getElem
  · simp [octets]
  · intro j h1 h2
    simp only [octets, List.getElem_map, List.getElem_range]
    rw [h j h2, List.getD_eq_getElem Y 0 h2]

/-- The unstuffing loop run over an escaped content: when the octets of `buf` from `i` on
are `hdlc_escape m Y`, the bound is the end of that content and the write index is behind
the read index, the loop ends at the bound (given enough passes) with `Y` stored from
offset `o` on and everything before `o` untouched. -/
theorem unstuff_loop_escape (Y : List Nat) :
    ∀ (m : List Bool) (fuel : Nat) (buf : Nat → Nat) (i o : Nat),
      o < i →
      (∀ j, j < (hdlc_escape m Y).length → buf (i + j) = (hdlc_escape m Y).getD j 0) →
      (hdlc_escape m Y).length ≤ fuel →
      ∃ buf1 : Nat → Nat,
        unstuff_loop ((i + (hdlc_escape m Y).length : Nat) : Int) fuel buf i o
          = (buf1, i + (hdlc_escape m Y).length, o + Y.length) ∧
        (∀ j, j < Y.length → buf1 (o + j) = Y.getD j 0) ∧
        (∀ j, j < o → buf1 j = buf j) := by
  induction Y with
  | nil =>
    intro m fuel buf i o _ _ _
    refine ⟨buf, ?_, ?_, ?_⟩
    · cases fuel with
      | zero => simp [hdlc_escape, unstuff_loop]
      | succ f => simp [hdlc_escape, unstuff_loop]
    · intro j hj; simp at hj
    · intro j _; rfl
  | cons c cs ih =>
    intro m fuel buf i o hoi hreg hfuel
    by_cases hesc : m.headD false = true ∨ c = 0x7D
    · -- the octet is escaped: two octets are read, one is stored
      have hE : hdlc_escape m (c :: cs) = 0x7D :: (c ^^^ 0x20) :: hdlc_escape m.tail cs := by
        rw [hdlc_escape, if_pos hesc]
        rfl
      rw [hE] at hreg hfuel ⊢
      simp only [List.length_cons] at hreg hfuel ⊢
      obtain ⟨f, rfl⟩ : ∃ f, fuel = f + 1 := ⟨fuel - 1, by omega⟩
      have h0 : buf i = 0x7D := by simpa using hreg 0 (by omega)
      have h1 : buf (i + 1) = c ^^^ 0x20 := by simpa using hreg 1 (by omega)
      have hxx : c ^^^ 0x20 ^^^ 0x20 = c := by
        rw [Nat.xor_assoc, Nat.xor_self, Nat.xor_zero]
      obtain ⟨buf1, hrun, hout, hkeep⟩ :=
        ih m.tail f (Function.update buf o c) (i + 2) (o + 1) (by omega)
          (by
            intro j hj
            have hne : i + 2 + j ≠ o := by omega
            rw [Function.update_noteq hne]
            have := hreg (j + 2) (by omega)
            rw [show i + (j + 2) = i + 2 + j by omega] at this
            simpa using this)
          (by omega)
      refine ⟨buf1, ?_, ?_, ?_⟩
      · rw [unstuff_loop]
        have hlt : (i : Int) < ((i + ((hdlc_escape m.tail cs).length + 1 + 1) : Nat) : Int) := by
          omega
        rw [if_pos hlt, if_pos (by rw [h0]; rfl), h1]
        simp only [FRAME_ENC, hxx]
        rw [show i + ((hdlc_escape m.tail cs).length + 1 + 1)
            = i + 2 + (hdlc_escape m.tail cs).length by omega]
        rw [hrun]
        simp only [Prod.mk.injEq, true_and]
        omega
      · intro j hj
        cases j with
        | zero =>
          have := hkeep o (by omega)
          simpa using this
        | succ k =>
          have := hout k (by simpa using hj)
          rw [show o + (k + 1) = o + 1 + k by omega]
          simpa using this
      · intro j hj
        rw [hkeep j (by omega), Function.update_noteq (by omega)]
    · -- the octet is written as it is
      have hc : c ≠ 0x7D := fun h => hesc (Or.inr h)
      have hE : hdlc_escape m (c :: cs) = c :: hdlc_escape m.tail cs := by
        rw [hdlc_escape, if_neg hesc]
        rfl
      rw [hE] at hreg hfuel ⊢
      simp only [List.length_cons] at hreg hfuel ⊢
      obtain ⟨f, rfl⟩ : ∃ f, fuel = f + 1 := ⟨fuel - 1, by omega⟩
      have h0 : buf i = c := by simpa using hreg 0 (by omega)
      obtain ⟨buf1, hrun, hout, hkeep⟩ :=
        ih m.tail f (Function.update buf o c) (i + 1) (o + 1) (by omega)
          (by
            intro j hj
            have hne : i + 1 + j ≠ o := by omega
            rw [Function.update_noteq hne]
            have := hreg (j + 1) (by omega)
            rw [show i + (j + 1) = i + 1 + j by omega] at this
            simpa using this)
          (by omega)
      refine ⟨buf1, ?_, ?_, ?_⟩
      · rw [unstuff_loop]
        have hlt : (i : Int) < ((i + ((hdlc_escape m.tail cs).length + 1) : Nat) : Int) := by
          omega
        rw [if_pos hlt, if_neg (by rw [h0]; exact hc), h0]
        rw [show i + ((hdlc_escape m.tail cs).length + 1)
            = i + 1 + (hdlc_escape m.tail cs).length by omega]
        rw [hrun]
        simp only [Prod.mk.injEq, true_and]
        omega
      · intro j hj
        cases j with
        | zero =>
          have := hkeep o (by omega)
          simpa using this
        | succ k =>
          have := hout k (by simpa using hj)
          rw [show o + (k + 1) = o + 1 + k by omega]
          simpa using this
      · intro j hj
        rw [hkeep j (by omega), Function.update_noteq (by omega)]

/-- The pass bound of `unstuff_loop` is never what stops it: with at least `bound - i`
passes allowed, the loop ends because `i < bound` fails. -/
theorem unstuff_loop_exit (bound : Int) :
    ∀ (fuel : Nat) (buf : Nat → Nat) (i o : Nat), bound ≤ (i : Int) + (fuel : Int) →
      ¬ (((unstuff_loop bound fuel buf i o).2.1 : Nat) : Int) < bound := by
  intro fuel
  induction fuel with
  | zero =>
    intro buf i o h
    simp only [unstuff_loop]
    omega
  | succ f ih =>
    intro buf i o h
    rw [unstuff_loop]
    by_cases hlt : (i : Int) < bound
    · rw [if_pos hlt]
      split
      · exact ih _ _ _ (by push_cast; omega)
      · exact ih _ _ _ (by push_cast; omega)
    · rw [if_neg hlt]
      exact hlt

/-- In `create_sess_build` the unstuffing loop always runs to its end. -/
theorem create_sess_build_loop_exit (buf : Nat → Nat) (bufsize : Int) :
    ¬ (((unstuff_loop (bufsize - 1) bufsize.toNat buf
          (if buf 0 = FRAME_FLAG then 4 else 3) 0).2.1 : Nat) : Int) < bufsize - 1 := by
  apply unstuff_loop_exit
  split <;> omega

/-- The pass bound of `search_flag` is never what stops it when `0 ≤ bufsize < fuel`:
the loop ends because its condition fails at the octet just before the final offset. -/
theorem search_flag_exit (buf : Nat → Nat) :
    ∀ (fuel p : Nat) (bufsize : Int), 0 ≤ bufsize → bufsize < (fuel : Int) →
      0 < (search_flag buf fuel p bufsize).1 ∧
      ¬ (buf ((search_flag buf fuel p bufsize).1 - 1) ≠ FRAME_FLAG
          ∧ (search_flag buf fuel p bufsize).2 ≠ 0) := by
  intro fuel
  induction fuel with
  | zero =>
    intro p bufsize h0 h1
    omega
  | succ f ih =>
    intro p bufsize h0 h1
    rw [search_flag]
    by_cases hc : buf p ≠ FRAME_FLAG ∧ bufsize ≠ 0
    · rw [if_pos hc]
      exact ih (p + 1) (bufsize - 1) (by omega) (by push_cast at h1; omega)
    · rw [if_neg hc]
      exact ⟨Nat.succ_pos p, by simpa using hc⟩

theorem create_sess_build_of_loop (src dst : MAC) (sess : Nat) (buf : Nat → Nat)
    (bufsize : Int) (buf1 : Nat → Nat) (i1 o1 : Nat)
    (h : unstuff_loop (bufsize - 1) bufsize.toNat buf (if buf 0 = FRAME_FLAG then 4 else 3) 0
      = (buf1, i1, o1)) :
    create_sess_build false src dst buf bufsize sess
      = sess_result.built (20 + ((o1 : Int) - 2))
          (sess_header src dst (sess % 65536)
            (htons (((20 : Int) + ((o1 : Int) - 2) - 20) % 65536).toNat))
          ((o1 : Int) - 2) (octets buf1 ((o1 : Int) - 2).toNat) := by
  unfold create_sess_build
  simp only [h]
  rfl

theorem create_sess_build_carries (src dst : MAC) (sess : Nat) (H : List Nat)
    (m : List Bool) (Q : List Nat) (f1 f2 t : Nat) (rest : Nat → Nat)
    (hH : H.length = if H.headD 0 = FRAME_FLAG then 4 else 3)
    (hQ : Q.length < 65536) :
    create_sess_build false src dst
        (mem (H ++ hdlc_escape m (Q ++ [f1, f2]) ++ [t]) rest)
        (((H ++ hdlc_escape m (Q ++ [f1, f2]) ++ [t]).length : Nat) : Int) sess
      = sess_result.built (20 + (Q.length : Int)) (sess_header src dst (sess % 65536) Q.length)
          (Q.length : Int) Q := by
  have hHpos : 0 < H.length := by
    rw [hH]; split <;> omega
  have hXlen : (H ++ hdlc_escape m (Q ++ [f1, f2]) ++ [t]).length
      = H.length + (hdlc_escape m (Q ++ [f1, f2])).length + 1 := by
    simp only [List.length_append, List.length_singleton]
  have hhead : mem (H ++ hdlc_escape m (Q ++ [f1, f2]) ++ [t]) rest 0 = H.headD 0 := by
    rw [mem_of_lt _ _ 0 (by omega)]
    cases H with
    | nil => simp at hHpos
    | cons a as => rfl
  obtain ⟨buf1, hrun, hout, _⟩ :=
    unstuff_loop_escape (Q ++ [f1, f2]) m
      (H.length + (hdlc_escape m (Q ++ [f1, f2])).length + 1)
      (mem (H ++ hdlc_escape m (Q ++ [f1, f2]) ++ [t]) rest) H.length 0 hHpos
      (by
        intro j hj
        rw [mem_of_lt _ _ _ (by omega), List.append_assoc, List.getD_append_right _ _ _ _ (by omega),
          Nat.add_sub_cancel_left, List.getD_append _ _ _ _ hj])
      (by omega)
  have hpay : octets buf1 Q.length = Q := by
    apply octets_eq_of_getD
    intro j hj
    have := hout j (by simp only [List.length_append]; omega)
    rw [Nat.zero_add, List.getD_append _ _ _ _ hj] at this
    exact this
  have hstart : (if mem (H ++ hdlc_escape m (Q ++ [f1, f2]) ++ [t]) rest 0 = FRAME_FLAG
      then 4 else 3) = H.length := by
    rw [hhead, hH]
  have hbound : (((H ++ hdlc_escape m (Q ++ [f1, f2]) ++ [t]).length : Nat) : Int) - 1
      = ((H.length + (hdlc_escape m (Q ++ [f1, f2])).length : Nat) : Int) := by
    rw [hXlen]; omega
  have hrun2 : unstuff_loop
      ((((H ++ hdlc_escape m (Q ++ [f1, f2]) ++ [t]).length : Nat) : Int) - 1)
      (((H ++ hdlc_escape m (Q ++ [f1, f2]) ++ [t]).length : Nat) : Int).toNat
      (mem (H ++ hdlc_escape m (Q ++ [f1, f2]) ++ [t]) rest)
      (if mem (H ++ hdlc_escape m (Q ++ [f1, f2]) ++ [t]) rest 0 = FRAME_FLAG then 4 else 3) 0
      = (buf1, H.length + (hdlc_escape m (Q ++ [f1, f2])).length,
          0 + (Q ++ [f1, f2]).length) := by
    rw [hstart, hbound, Int.toNat_ofNat, hXlen]
    exact hrun
  rw [create_sess_build_of_loop src dst sess _ _ _ _ _ hrun2]
  have hbs : (((0 + (Q ++ [f1, f2]).length : Nat) : Int) - 2) = (Q.length : Int) := by
    simp only [List.length_append, List.length_cons, List.length_nil]
    omega
  rw [hbs, Int.toNat_ofNat, hpay]
  have hl : (((20 : Int) + (Q.length : Int) - 20) % 65536).toNat = Q.length := by
    omega
  simp only [sess_header, hl, htons, Nat.mod_eq_of_lt hQ]

theorem create_sess_no_fwd (search packet_null : Bool) (src dst : MAC) (buf : Nat → Nat)
    (bufsize : Int) (sess : Nat) (h : buf 0 = FRAME_FLAG ∨ buf 0 = FRAME_ADDR) :
    create_sess false search packet_null src dst buf bufsize sess
      = create_sess_build packet_null src dst buf bufsize sess := by
  unfold create_sess
  rw [if_neg]
  simp [h]

theorem create_sess_strict_drop (packet_null : Bool) (src dst : MAC) (buf : Nat → Nat)
    (bufsize : Int) (sess : Nat) (h : ¬ (buf 0 = FRAME_FLAG ∨ buf 0 = FRAME_ADDR)) :
    create_sess false false packet_null src dst buf bufsize sess = sess_result.zero := by
  unfold create_sess
  rw [if_pos (Or.inr h)]
  simp

theorem hdlc_escape_length_ge (m : List Bool) (Y : List Nat) :
    Y.length ≤ (hdlc_escape m Y).length := by
  induction Y generalizing m with
  | nil => simp [hdlc_escape]
  | cons c cs ih =>
    rw [hdlc_escape, List.length_append, List.length_cons]
    have := ih m.tail
    split <;> simp <;> omega

theorem encode_loop_append (a b : List Nat) :
    encode_loop (a ++ b) = encode_loop a ++ encode_loop b := by
  induction a with
  | nil => rfl
  | cons c cs ih =>
    rw [List.cons_append, encode_loop, encode_loop, ih, List.append_assoc]

theorem encode_loop_eq_escape (Y : List Nat) :
    encode_loop Y = hdlc_escape (stuff_mask Y) Y := by
  induction Y with
  | nil => rfl
  | cons c cs ih =>
    have ht : (stuff_mask (c :: cs)).tail = stuff_mask cs := rfl
    have hh : (stuff_mask (c :: cs)).headD false
        = decide (c = FRAME_FLAG ∨ c = FRAME_ESC ∨ c < 0x20) := rfl
    rw [encode_loop, hdlc_escape, ht, hh, ih]
    by_cases hc : c = FRAME_FLAG ∨ c = FRAME_ESC ∨ c < 0x20
    · rw [if_pos hc, if_pos (Or.inl (decide_eq_true hc))]
      rfl
    · have hne : c ≠ 0x7D := fun h => hc (Or.inr (Or.inl h))
      rw [if_neg hc, if_neg]
      intro h
      rcases h with h | h
      · exact hc (of_decide_eq_true h)
      · exact hne h

theorem encode_loop_length_le (Y : List Nat) : (encode_loop Y).length ≤ 2 * Y.length := by
  induction Y with
  | nil => simp [encode_loop]
  | cons c cs ih =>
    rw [encode_loop, List.length_append, List.length_cons]
    split <;> simp <;> omega

theorem encode_ppp_out (first : Nat) (P : List Nat) :
    (encode_ppp first P).1
      = (if first = 0 then [FRAME_FLAG, 0xFF, 0x7D, 0x23] else [0xFF, 0x7D, 0x23])
        ++ hdlc_escape (stuff_mask (P ++ [encode_ppp_fcs P &&& 0x00ff,
            (encode_ppp_fcs P >>> 8) &&& 0x00ff]))
          (P ++ [encode_ppp_fcs P &&& 0x00ff, (encode_ppp_fcs P >>> 8) &&& 0x00ff])
        ++ [FRAME_FLAG] := by
  rw [← encode_loop_eq_escape, encode_loop_append]
  simp only [encode_ppp]
  split <;> simp [FRAME_ADDR, FRAME_ESC, FRAME_CTL, FRAME_ENC]

theorem encode_ppp_length_le (first : Nat) (P : List Nat) :
    (encode_ppp first P).1.length ≤ 2 * P.length + 9 := by
  have h1 := encode_loop_length_le P
  have h2 := encode_loop_length_le
    [encode_ppp_fcs P &&& 0x00ff, (encode_ppp_fcs P >>> 8) &&& 0x00ff]
  simp only [encode_ppp, List.length_append, List.length_cons, List.length_nil] at h2 ⊢
  split <;> simp <;> omega

/-- C2 (FCS residual).  For every payload `P`, the `fcs` that `encode_ppp` computes is
`pppfcs16(pppfcs16(0xFFFF, [0xFF, 0x03]), P) xor 0xFFFF`, and running `pppfcs16` from
0xFFFF over 0xFF, 0x03, `P`, `fcs and 0xFF`, `fcs >> 8` returns exactly 0xF0B8. -/
theorem fcs_residual (P : List Nat) :
    encode_ppp_fcs P = pppfcs16 (pppfcs16 0xFFFF [0xFF, 0x03]) P ^^^ 0xFFFF ∧
    pppfcs16 0xFFFF ([0xFF, 0x03] ++ P ++ [encode_ppp_fcs P &&& 0xFF, encode_ppp_fcs P >>> 8])
      = 0xF0B8 := by
  refine ⟨encode_ppp_fcs_eq P, ?_⟩
  rw [pppfcs16_append, pppfcs16_append, encode_ppp_fcs_eq]
  have hs := pppfcs16_lt (pppfcs16 0xFFFF [0xFF, 0x03]) P
  generalize pppfcs16 (pppfcs16 0xFFFF [0xFF, 0x03]) P = s at hs ⊢
  unfold pppfcs16
  simp only [List.foldl_cons, List.foldl_nil, Nat.mod_eq_of_lt hs]
  exact residual_two_steps s hs

/-- C3 (encoder wire format).  For every payload `P` and every value of the static
`first`, the octets `encode_ppp` writes are the wire format of the specification: one FLAG
exactly when `first` is 0 (no encode yet), the stuffed ADDR, CTL, payload octets, FCS low
octet and FCS high octet, and one closing FLAG, with the FCS the complement of the FCS-16
of 0xFF, 0x03, `P` started at 0xFFFF; after the call `first` is not 0. -/
theorem encode_ppp_wire_format (first : Nat) (P : List Nat) :
    (encode_ppp first P).1 = spec_wire (decide (first = 0)) P ∧
    (encode_ppp first P).2 ≠ 0 := by
  have hlt := encode_ppp_fcs_lt P
  have hlo : encode_ppp_fcs P &&& 0x00ff = encode_ppp_fcs P % 256 := and_255 _
  have hhi : (encode_ppp_fcs P >>> 8) &&& 0x00ff = encode_ppp_fcs P / 256 := by
    rw [and_255, Nat.shiftRight_eq_div_pow]
    exact Nat.mod_eq_of_lt (Nat.div_lt_of_lt_mul (by simpa using hlt))
  constructor
  · simp only [encode_ppp, spec_wire, hlo, hhi, encode_loop_eq_spec, spec_fcs_eq,
      spec_stuff_all, List.append_nil, List.append_assoc]
    by_cases h : first = 0
    · simp [h, spec_stuff, FRAME_FLAG, FRAME_ADDR, FRAME_ESC, FRAME_CTL, FRAME_ENC]
    · simp [h, spec_stuff, FRAME_FLAG, FRAME_ADDR, FRAME_ESC, FRAME_CTL, FRAME_ENC]
  · simp only [encode_ppp]
    by_cases h : first = 0
    · simp [h]
    · simp [h]

/-- C1 (HDLC round trip).  For every payload `P` of at most 2043 octets and either state
of the encoder (`first` 0 on the first call, not 0 later), the octets `encode_ppp` writes
fit `PACKETBUF`, and `create_sess` with both tolerant switches off, run on a buffer that
holds exactly those octets (whatever the memory behind them holds), returns a non-zero
size and builds a frame whose Length field is `|P|` and whose payload octets are `P`. -/
theorem hdlc_round_trip (first : Nat) (P : List Nat) (src dst : MAC) (sess : Nat)
    (rest : Nat → Nat) (hP : P.length ≤ 2043) :
    (encode_ppp first P).1.length ≤ PACKETBUF ∧
    create_sess false false false src dst (mem (encode_ppp first P).1 rest)
        (((encode_ppp first P).1.length : Nat) : Int) sess
      = sess_result.built (20 + (P.length : Int))
          (sess_header src dst (sess % 65536) P.length) (P.length : Int) P ∧
    (create_sess false false false src dst (mem (encode_ppp first P).1 rest)
        (((encode_ppp first P).1.length : Nat) : Int) sess).ret ≠ 0 := by
  have hlen := encode_ppp_length_le first P
  have hbuild : create_sess false false false src dst (mem (encode_ppp first P).1 rest)
        (((encode_ppp first P).1.length : Nat) : Int) sess
      = sess_result.built (20 + (P.length : Int))
          (sess_header src dst (sess % 65536) P.length) (P.length : Int) P := by
    have hpos : 0 < (encode_ppp first P).1.length := by
      rw [encode_ppp_out]; simp
    have h0 : mem (encode_ppp first P).1 rest 0 = FRAME_FLAG
        ∨ mem (encode_ppp first P).1 rest 0 = FRAME_ADDR := by
      rw [mem_of_lt _ _ 0 hpos, encode_ppp_out]
      by_cases h : first = 0
      · left; simp [h]
      · right; simp [h, FRAME_ADDR]
    rw [create_sess_no_fwd false false src dst _ _ sess h0, encode_ppp_out]
    apply create_sess_build_carries
    · by_cases h : first = 0
      · simp [h]
      · simp [h, FRAME_FLAG]
    · omega
  refine ⟨?_, hbuild, ?_⟩
  · unfold PACKETBUF; omega
  · rw [hbuild]
    simp only [sess_result.ret]
    omega

theorem hdlc_round_trip_witness :
    (encode_ppp 0 [0x7e, 0x41, 0x03]).1.length ≤ PACKETBUF ∧
    create_sess false false false ⟨2, 0, 0, 0, 0, 1⟩ ⟨2, 0, 0, 0, 0, 2⟩
        (mem (encode_ppp 0 [0x7e, 0x41, 0x03]).1 (fun _ => 0))
        (((encode_ppp 0 [0x7e, 0x41, 0x03]).1.length : Nat) : Int) 0x1234
      = sess_result.built (20 + (([0x7e, 0x41, 0x03] : List Nat).length : Int))
          (sess_header ⟨2, 0, 0, 0, 0, 1⟩ ⟨2, 0, 0, 0, 0, 2⟩ (0x1234 % 65536)
            ([0x7e, 0x41, 0x03] : List Nat).length)
          (([0x7e, 0x41, 0x03] : List Nat).length : Int) [0x7e, 0x41, 0x03] ∧
    (create_sess false false false ⟨2, 0, 0, 0, 0, 1⟩ ⟨2, 0, 0, 0, 0, 2⟩
        (mem (encode_ppp 0 [0x7e, 0x41, 0x03]).1 (fun _ => 0))
        (((encode_ppp 0 [0x7e, 0x41, 0x03]).1.length : Nat) : Int) 0x1234).ret ≠ 0 :=
  hdlc_round_trip 0 [0x7e, 0x41, 0x03] ⟨2, 0, 0, 0, 0, 1⟩ ⟨2, 0, 0, 0, 0, 2⟩ 0x1234
    (fun _ => 0) (by decide)

/-- The part of C4 that holds, with always-forward off.  For every local MAC `src`, AC MAC
`dst`, session id `sess` (16 bits) and every buffer of at most `PACKETBUF` octets that `create_sess` accepts
without always-forward and that carries a PPP payload `Q` in HDLC framing (FLAG and three
octets, or ADDR and two octets, for the stuffed ADDR and CTL as in `7E FF 7D 23` or
`FF 7D 23`; then `Q` and two FCS octets with any octets escaped; then a closing octet),
the frame built has dst = AC MAC, src = local MAC, EtherType 0x8864, version 1, type 1,
code 0x00, Session-ID `sess`, Length `|Q|`, payload `Q`, and the size returned is
`20 + |Q|`. -/
theorem create_sess_frame (src dst : MAC) (sess : Nat) (search : Bool) (a b c : Nat)
    (H : List Nat) (m : List Bool) (Q : List Nat) (f1 f2 t : Nat) (rest : Nat → Nat)
    (hH : H = [FRAME_FLAG, a, b, c] ∨ H = [FRAME_ADDR, b, c])
    (hX : (H ++ hdlc_escape m (Q ++ [f1, f2]) ++ [t]).length ≤ PACKETBUF)
    (hs : sess < 65536) :
    create_sess false search false src dst
        (mem (H ++ hdlc_escape m (Q ++ [f1, f2]) ++ [t]) rest)
        (((H ++ hdlc_escape m (Q ++ [f1, f2]) ++ [t]).length : Nat) : Int) sess
      = sess_result.built (20 + (Q.length : Int)) (sess_header src dst sess Q.length)
          (Q.length : Int) Q := by
  have hlenE : (Q ++ [f1, f2]).length ≤ (hdlc_escape m (Q ++ [f1, f2])).length :=
    hdlc_escape_length_ge m _
  have hQ : Q.length < 65536 := by
    simp only [List.length_append, List.length_cons, List.length_nil, PACKETBUF] at hX hlenE
    omega
  have hHl : H.length = if H.headD 0 = FRAME_FLAG then 4 else 3 := by
    rcases hH with h | h
    · rw [h]; rfl
    · rw [h]; rfl
  have h0 : mem (H ++ hdlc_escape m (Q ++ [f1, f2]) ++ [t]) rest 0 = FRAME_FLAG
      ∨ mem (H ++ hdlc_escape m (Q ++ [f1, f2]) ++ [t]) rest 0 = FRAME_ADDR := by
    rw [mem_of_lt _ _ 0 (by rcases hH with h | h <;> simp [h])]
    rcases hH with h | h
    · left; rw [h]; rfl
    · right; rw [h]; rfl
  rw [create_sess_no_fwd search false src dst _ _ sess h0,
    create_sess_build_carries src dst sess H m Q f1 f2 t rest hHl hQ, Nat.mod_eq_of_lt hs]

theorem create_sess_frame_witness :
    create_sess false false false ⟨2, 0, 0, 0, 0, 1⟩ ⟨2, 0, 0, 0, 0, 2⟩
        (mem ([FRAME_FLAG, 0xFF, 0x7D, 0x23]
          ++ hdlc_escape [] ([0xC0, 0x21, 0x01, 0x01, 0x00, 0x04] ++ [0xD1, 0xB5]) ++ [0x7E])
          (fun _ => 0))
        ((([FRAME_FLAG, 0xFF, 0x7D, 0x23]
          ++ hdlc_escape [] ([0xC0, 0x21, 0x01, 0x01, 0x00, 0x04] ++ [0xD1, 0xB5])
          ++ [0x7E]).length : Nat) : Int) 0x1234
      = sess_result.built (20 + (([0xC0, 0x21, 0x01, 0x01, 0x00, 0x04] : List Nat).length : Int))
          (sess_header ⟨2, 0, 0, 0, 0, 1⟩ ⟨2, 0, 0, 0, 0, 2⟩ 0x1234
            ([0xC0, 0x21, 0x01, 0x01, 0x00, 0x04] : List Nat).length)
          (([0xC0, 0x21, 0x01, 0x01, 0x00, 0x04] : List Nat).length : Int)
          [0xC0, 0x21, 0x01, 0x01, 0x00, 0x04] :=
  create_sess_frame ⟨2, 0, 0, 0, 0, 1⟩ ⟨2, 0, 0, 0, 0, 2⟩ 0x1234 false 0xFF 0x7D 0x23
    [FRAME_FLAG, 0xFF, 0x7D, 0x23] [] [0xC0, 0x21, 0x01, 0x01, 0x00, 0x04] 0xD1 0xB5 0x7E
    (fun _ => 0) (Or.inl rfl) (by decide) (by decide)

/-- C4 (Session frame construction), the code at a failing input.  With both tolerant
switches on (options `-F a` and `-F s`) the buffer of the claim,
`7E FF 7D 23 C0 21 01 01 00 04 D1 B5 7E`, which carries `Q = C0 21 01 01 00 04`, is accepted
by `create_sess`: the guard is entered, the search loop stops at the FLAG at offset 0
with the pointer one past it and the count unchanged, and the frame built has Length 7,
the payload `C0 21 01 01 00 04 D1` and size 27, where the claim has Length 6, the payload
`Q` and size 26. -/
theorem create_sess_both_switches_example :
    create_sess true true false ⟨2, 0, 0, 0, 0, 1⟩ ⟨2, 0, 0, 0, 0, 2⟩
        (mem [0x7E, 0xFF, 0x7D, 0x23, 0xC0, 0x21, 0x01, 0x01, 0x00, 0x04, 0xD1, 0xB5, 0x7E]
          (fun _ => 0)) 13 0x1234
      = sess_result.built 27 (sess_header ⟨2, 0, 0, 0, 0, 1⟩ ⟨2, 0, 0, 0, 0, 2⟩ 0x1234 7) 7
          [0xC0, 0x21, 0x01, 0x01, 0x00, 0x04, 0xD1] := by
  rfl

/-- C10 (strict-mode rejection).  With both tolerant switches off and a non-null packet
buffer, for every non-empty input buffer `create_sess` returns 0 if and only if the first
octet is neither FLAG nor ADDR; and exactly then the pass of `pppd_handler` ends in
`continue` without sending. -/
theorem create_sess_strict_reject (src dst : MAC) (sess : Nat) (X : List Nat)
    (rest : Nat → Nat) (hX : X ≠ []) :
    ((create_sess false false false src dst (mem X rest) ((X.length : Nat) : Int) sess).ret = 0
      ↔ (X.head hX ≠ FRAME_FLAG ∧ X.head hX ≠ FRAME_ADDR)) ∧
    (pppd_handler_pass false false src dst sess (mem X rest) ((X.length : Nat) : Int)
        = pppd_result.skip
      ↔ (X.head hX ≠ FRAME_FLAG ∧ X.head hX ≠ FRAME_ADDR)) := by
  have hpos : 0 < X.length := List.length_pos.mpr hX
  have h0 : mem X rest 0 = X.head hX := by
    rw [mem_of_lt _ _ 0 hpos]
    cases X with
    | nil => exact absurd rfl hX
    | cons x xs => rfl
  have hl1 : ¬ (((X.length : Nat) : Int) < 0) := by omega
  have hl2 : ¬ (((X.length : Nat) : Int) = 0) := by omega
  by_cases hacc : X.head hX = FRAME_FLAG ∨ X.head hX = FRAME_ADDR
  · -- accepted: a frame is built and its size is at least 18
    have hno : ¬ (X.head hX ≠ FRAME_FLAG ∧ X.head hX ≠ FRAME_ADDR) := by
      intro h
      rcases hacc with h1 | h1
      · exact h.1 h1
      · exact h.2 h1
    obtain ⟨buf1, i1, o1, hrun⟩ : ∃ buf1 i1 o1,
        unstuff_loop (((X.length : Nat) : Int) - 1) ((X.length : Nat) : Int).toNat (mem X rest)
          (if mem X rest 0 = FRAME_FLAG then 4 else 3) 0 = (buf1, i1, o1) :=
      ⟨_, _, _, rfl⟩
    have hb := create_sess_build_of_loop src dst sess _ _ _ _ _ hrun
    have hc := create_sess_no_fwd false false src dst (mem X rest) ((X.length : Nat) : Int) sess
      (by rw [h0]; exact hacc)
    have hne : (20 : Int) + ((o1 : Int) - 2) ≠ 0 := by omega
    constructor
    · rw [hc, hb]
      simp only [sess_result.ret]
      exact ⟨fun h => absurd h hne, fun h => absurd h hno⟩
    · unfold pppd_handler_pass
      rw [if_neg hl1, if_neg hl2, hc, hb]
      simp only [if_neg hne]
      exact ⟨fun h => pppd_result.noConfusion h, fun h => absurd h hno⟩
  · -- rejected: `create_sess: invalid data`
    have hyes : X.head hX ≠ FRAME_FLAG ∧ X.head hX ≠ FRAME_ADDR :=
      ⟨fun h => hacc (Or.inl h), fun h => hacc (Or.inr h)⟩
    have hc := create_sess_strict_drop false src dst (mem X rest) ((X.length : Nat) : Int) sess
      (by rw [h0]; exact hacc)
    constructor
    · rw [hc]
      exact ⟨fun _ => hyes, fun _ => rfl⟩
    · unfold pppd_handler_pass
      rw [if_neg hl1, if_neg hl2, hc]
      exact ⟨fun _ => hyes, fun _ => rfl⟩

theorem create_sess_strict_reject_witness :
    (([0x41, 0x7E] : List Nat) ≠ []) ∧
    (((create_sess false false false ⟨2, 0, 0, 0, 0, 1⟩ ⟨2, 0, 0, 0, 0, 2⟩
        (mem [0x41, 0x7E] (fun _ => 0)) ((([0x41, 0x7E] : List Nat).length : Nat) : Int)
        0x1234).ret = 0
      ↔ (([0x41, 0x7E] : List Nat).head (by decide) ≠ FRAME_FLAG
          ∧ ([0x41, 0x7E] : List Nat).head (by decide) ≠ FRAME_ADDR)) ∧
    (pppd_handler_pass false false ⟨2, 0, 0, 0, 0, 1⟩ ⟨2, 0, 0, 0, 0, 2⟩ 0x1234
        (mem [0x41, 0x7E] (fun _ => 0)) ((([0x41, 0x7E] : List Nat).length : Nat) : Int)
        = pppd_result.skip
      ↔ (([0x41, 0x7E] : List Nat).head (by decide) ≠ FRAME_FLAG
          ∧ ([0x41, 0x7E] : List Nat).head (by decide) ≠ FRAME_ADDR))) :=
  ⟨by decide, create_sess_strict_reject ⟨2, 0, 0, 0, 0, 1⟩ ⟨2, 0, 0, 0, 0, 2⟩ 0x1234
    [0x41, 0x7E] (fun _ => 0) (by decide)⟩

/-- C5 (PADI header round trip).  For every source MAC and every optional service name
(absent treated as empty) whose frame fits the `PACKETBUF`-octet packet buffer,
`create_padi` returns `24 + |name|` and writes dst = ff:ff:ff:ff:ff:ff, src = the MAC,
EtherType 0x8863, version 1, type 1, code 0x09, Session-ID 0, Length `4 + |name|` and a
payload of `4 + |name|` octets that reads back as exactly one tag: type 0x0101, length
`|name|`, value `name`. -/
theorem create_padi_round_trip (src : MAC) (name : Option (List Nat))
    (hfit : sizeof_pppoe_packet + sizeof_pppoe_tag + (name.getD []).length ≤ PACKETBUF) :
    ∃ payload : List Nat,
      create_padi false src name
        = (24 + (name.getD []).length,
            some ⟨{ h_dest := ⟨0xff, 0xff, 0xff, 0xff, 0xff, 0xff⟩
                    h_source := src
                    h_proto := 0x8863
                    ver := 1
                    type := 1
                    code := 0x09
                    session := 0
                    length := 4 + (name.getD []).length }, payload⟩) ∧
      payload.length = 4 + (name.getD []).length ∧
      spec_tags payload.length payload = [(0x0101, (name.getD []).length, name.getD [])] := by
  cases name with
  | none =>
    exact ⟨[0x01, 0x01, 0x00, 0x00], rfl, rfl, rfl⟩
  | some n =>
    simp only [Option.getD_some, sizeof_pppoe_packet, sizeof_pppoe_tag, PACKETBUF] at hfit ⊢
    have h1 : (20 + 4 + n.length - 20) % 65536 = 4 + n.length := by omega
    have h2 : n.length % 65536 = n.length := by omega
    have h3 : n.length / 256 % 256 * 256 + n.length % 256 = n.length := by omega
    refine ⟨[0x01, 0x01, n.length / 256 % 256, n.length % 256] ++ n, ?_, ?_, ?_⟩
    · simp only [create_padi, sizeof_pppoe_packet, sizeof_pppoe_tag, htons, be16, h1, h2,
        MAC_BCAST_ADDR, ETH_P_PPPOE_DISC, CODE_PADI, TAG_SERVICE_NAME]
      simp
    · simp
      omega
    · simp only [List.length_append, List.length_cons, List.length_nil, List.cons_append,
        List.nil_append]
      rw [spec_tags, h3, List.take_length, List.drop_length]
      cases n with
      | nil => rfl
      | cons x xs => rfl

theorem create_padi_round_trip_witness :
    ∃ payload : List Nat,
      create_padi false ⟨2, 0, 0, 0, 0, 1⟩ (some [0x69, 0x73, 0x70])
        = (24 + ((some [0x69, 0x73, 0x70] : Option (List Nat)).getD []).length,
            some ⟨{ h_dest := ⟨0xff, 0xff, 0xff, 0xff, 0xff, 0xff⟩
                    h_source := ⟨2, 0, 0, 0, 0, 1⟩
                    h_proto := 0x8863
                    ver := 1
                    type := 1
                    code := 0x09
                    session := 0
                    length := 4 + ((some [0x69, 0x73, 0x70] : Option (List Nat)).getD []).length },
              payload⟩) ∧
      payload.length = 4 + ((some [0x69, 0x73, 0x70] : Option (List Nat)).getD []).length ∧
      spec_tags payload.length payload
        = [(0x0101, ((some [0x69, 0x73, 0x70] : Option (List Nat)).getD []).length,
            (some [0x69, 0x73, 0x70] : Option (List Nat)).getD [])] :=
  create_padi_round_trip ⟨2, 0, 0, 0, 0, 1⟩ (some [0x69, 0x73, 0x70]) (by decide)

/-- C6 (AC to local filter).  For every received frame and every learned identity, one
pass of `sess_handler` writes to the local endpoint if and only if the frame's source is
the AC MAC, its Session-ID field is the learned session, its EtherType is 0x8864 and its
code is 0x00; when it writes, the octets written are those of `encode_ppp` applied to the
first Length octets after the header, and when a test fails nothing is written and the
encoder keeps its state.  The pass dies at an unguarded `fprintf(log_file, ...)` exactly
when `log_file` is `NULL` and the frame fails the EtherType or the code test after
passing the first two. -/
theorem sess_handler_filter (log_open : Bool) (dst_addr : MAC) (session first : Nat)
    (packet : pppoe_packet) (data : Nat → Nat) :
    (((sess_handler_pass log_open dst_addr session first packet data).written ≠ none)
      ↔ (packet.h_source = dst_addr ∧ packet.session = session ∧ packet.h_proto = 0x8864
          ∧ packet.code = 0x00)) ∧
    ((packet.h_source = dst_addr ∧ packet.session = session ∧ packet.h_proto = 0x8864
          ∧ packet.code = 0x00) →
      sess_handler_pass log_open dst_addr session first packet data
        = ⟨some (encode_ppp first (octets data (ntohs packet.length))).1,
            (encode_ppp first (octets data (ntohs packet.length))).2, false⟩) ∧
    (¬ (packet.h_source = dst_addr ∧ packet.session = session ∧ packet.h_proto = 0x8864
          ∧ packet.code = 0x00) →
      (sess_handler_pass log_open dst_addr session first packet data).written = none ∧
      (sess_handler_pass log_open dst_addr session first packet data).first = first) ∧
    ((sess_handler_pass log_open dst_addr session first packet data).died = true
      ↔ (log_open = false ∧ packet.h_source = dst_addr ∧ packet.session = session
          ∧ (packet.h_proto ≠ 0x8864 ∨ packet.code ≠ 0x00))) := by
  have hproto : htons ETH_P_PPPOE_SESS = 0x8864 := rfl
  have hcode : CODE_SESS = 0x00 := rfl
  unfold sess_handler_pass
  rw [hproto, hcode]
  by_cases h1 : packet.h_source = dst_addr
  · by_cases h2 : packet.session = session
    · by_cases h3 : packet.h_proto = 0x8864
      · by_cases h4 : packet.code = 0x00
        · simp [h1, h2, h3, h4]
        · cases log_open <;> simp [h1, h2, h3, h4]
      · cases log_open <;> simp [h1, h2, h3]
    · simp [h1, h2]
  · simp [h1]

/-! ## Discovery -/

theorem main_frames_append (log_open open_ok : Bool) (a b : List pppoe_packet) :
    ∀ s : main_state, main_frames log_open open_ok s (a ++ b)
      = ((main_frames log_open open_ok (main_frames log_open open_ok s a).1 b).1,
          (main_frames log_open open_ok s a).2
            ++ (main_frames log_open open_ok (main_frames log_open open_ok s a).1 b).2) := by
  induction a with
  | nil => intro s; simp [main_frames]
  | cons p ps ih =>
    intro s
    rw [List.cons_append, main_frames, main_frames, ih]
    simp only [List.append_assoc]

theorem main_frames_single (log_open open_ok : Bool) (s : main_state) (p : pppoe_packet) :
    main_frames log_open open_ok s [p] = main_step log_open open_ok s p := by
  simp [main_frames]

theorem wait_pado_skips (open_ok : Bool) (pre : List pppoe_packet) :
    ∀ s : main_state, s.at_phase = phase.WAIT_PADO →
      (∀ p ∈ pre, p.code ≠ CODE_PADO ∧ p.code ≠ CODE_PADT) →
      main_frames true open_ok s pre = (s, []) := by
  induction pre with
  | nil => intro s _ _; rfl
  | cons p ps ih =>
    intro s hs hpre
    have hp := hpre p (List.mem_cons_self p ps)
    have hstep : main_step true open_ok s p = (s, []) := by
      unfold main_step
      rw [hs]
      simp only [if_pos hp, if_true]
    rw [main_frames, hstep]
    simp only [ih s hs (fun q hq => hpre q (List.mem_cons_of_mem p hq)), List.append_nil]

theorem wait_pads_skips (open_ok : Bool) (mid : List pppoe_packet) :
    ∀ s : main_state, s.at_phase = phase.WAIT_PADS →
      (∀ p ∈ mid, p.h_source ≠ s.dst_addr) →
      main_frames true open_ok s mid = (s, []) := by
  induction mid with
  | nil => intro s _ _; rfl
  | cons p ps ih =>
    intro s hs hmid
    have hp := hmid p (List.mem_cons_self p ps)
    have hstep : main_step true open_ok s p = (s, []) := by
      unfold main_step
      rw [hs]
      simp only [if_pos hp, if_true, ite_self]
    rw [main_frames, hstep]
    simp only [ih s hs (fun q hq => hmid q (List.mem_cons_of_mem p hq)), List.append_nil]

/-- The part of C7 that holds: when `log_file` is an open stream (option `-L`) and the
session socket opens.  From the start with local MAC `L`, `main` first sends the PADI that
`create_padi(L, NULL)` builds.  Then, for every sequence of received frames made of
frames whose code is neither PADO nor PADT, a PADO from `A`, frames whose source is not
`A`, and a PADS from `A` with Session-ID `s`: right after the PADO the only frame sent is
the PADR with src `L` and dst `A` (sent with its 14 octets of padding), no other frame is
sent, and `main` ends in RUN with the identity `(L, A, s)`. -/
theorem discovery_happy_path_logged (L A : MAC) (s : Nat) (pre mid : List pppoe_packet)
    (pado pads : pppoe_packet)
    (hpre : ∀ p ∈ pre, p.code ≠ CODE_PADO ∧ p.code ≠ CODE_PADT)
    (hpado : pado.code = CODE_PADO ∧ pado.h_source = A)
    (hmid : ∀ p ∈ mid, p.h_source ≠ A)
    (hpads : pads.code = CODE_PADS ∧ pads.h_source = A ∧ pads.session = s) :
    create_padi false L none
      = (24, some ⟨⟨⟨0xff, 0xff, 0xff, 0xff, 0xff, 0xff⟩, L, 0x8863, 1, 1, 0x09, 0, 4⟩,
          [0x01, 0x01, 0x00, 0x00]⟩) ∧
    main_start L
      = (⟨phase.WAIT_PADO, L, ⟨0, 0, 0, 0, 0, 0⟩, 0⟩,
          [action.send ⟨⟨⟨0xff, 0xff, 0xff, 0xff, 0xff, 0xff⟩, L, 0x8863, 1, 1, 0x09, 0, 4⟩,
            [0x01, 0x01, 0x00, 0x00]⟩ 24]) ∧
    main_frames true true (main_start L).1 (pre ++ [pado])
      = (⟨phase.WAIT_PADS, L, A, 0⟩,
          [action.send ⟨⟨A, L, 0x8863, 1, 1, 0x19, 0, 4⟩,
            [0x01, 0x01, 0x00, 0x00] ++ List.replicate 14 0⟩ 38]) ∧
    main_frames true true (main_start L).1 (pre ++ [pado] ++ mid ++ [pads])
      = (⟨phase.RUN, L, A, s⟩,
          [action.send ⟨⟨A, L, 0x8863, 1, 1, 0x19, 0, 4⟩,
            [0x01, 0x01, 0x00, 0x00] ++ List.replicate 14 0⟩ 38,
           action.open_sess, action.fork_sess_handler, action.fork_pppd_handler]) := by
  obtain ⟨hc1, hsrc1⟩ := hpado
  obtain ⟨hc2, hsrc2, hsess⟩ := hpads
  have hstart : main_start L
      = (⟨phase.WAIT_PADO, L, ⟨0, 0, 0, 0, 0, 0⟩, 0⟩,
          [action.send ⟨⟨⟨0xff, 0xff, 0xff, 0xff, 0xff, 0xff⟩, L, 0x8863, 1, 1, 0x09, 0, 4⟩,
            [0x01, 0x01, 0x00, 0x00]⟩ 24]) := rfl
  have hoffer : main_frames true true (main_start L).1 (pre ++ [pado])
      = (⟨phase.WAIT_PADS, L, A, 0⟩,
          [action.send ⟨⟨A, L, 0x8863, 1, 1, 0x19, 0, 4⟩,
            [0x01, 0x01, 0x00, 0x00] ++ List.replicate 14 0⟩ 38]) := by
    rw [hstart, main_frames_append, wait_pado_skips true pre _ rfl hpre, main_frames_single]
    have hno : ¬ (pado.code ≠ CODE_PADO ∧ pado.code ≠ CODE_PADT) := fun h => h.1 hc1
    unfold main_step
    simp only [if_neg hno, hsrc1]
    rfl
  refine ⟨rfl, hstart, hoffer, ?_⟩
  rw [List.append_assoc (pre ++ [pado]), main_frames_append, hoffer,
    main_frames_append, wait_pads_skips true mid _ rfl (by simpa using hmid),
    main_frames_single]
  have hnt : pads.code ≠ CODE_PADT := by rw [hc2]; decide
  unfold main_step
  simp [hsrc2, hnt, hsess]

/-- C7 (Discovery happy path), the code at a failing input.  The configuration is the
default one (no option `-L`, so `log_file` is `NULL`), the local MAC 02:00:00:00:00:01.
A first frame with code 0xAA (neither PADO nor PADT) makes the body of the PADO wait call
`fprintf(log_file, ...)` on the `NULL` stream: `main` dies there, and on the sequence
0xAA frame, PADO from 02:00:00:00:00:02, PADS from it with session 0x1234, no PADR is
sent and RUN is not reached.  Without such a first frame, a second PADO from
02:00:00:00:00:03 that arrives while `main` waits for PADS (a frame whose source is not
the AC MAC) makes the body of the PADS wait do the same, after the PADR. -/
theorem unexpected_frame_without_log_dies :
    main_step false true ⟨phase.WAIT_PADO, ⟨2, 0, 0, 0, 0, 1⟩, ⟨0, 0, 0, 0, 0, 0⟩, 0⟩ ⟨⟨2, 0, 0, 0, 0, 1⟩, ⟨2, 0, 0, 0, 0, 9⟩, 0x8863, 1, 1, 0xAA, 0, 0⟩
      = (⟨phase.CRASHED, ⟨2, 0, 0, 0, 0, 1⟩, ⟨0, 0, 0, 0, 0, 0⟩, 0⟩, [action.crash]) ∧
    main_frames false true (main_start ⟨2, 0, 0, 0, 0, 1⟩).1
        [⟨⟨2, 0, 0, 0, 0, 1⟩, ⟨2, 0, 0, 0, 0, 9⟩, 0x8863, 1, 1, 0xAA, 0, 0⟩,
         ⟨⟨2, 0, 0, 0, 0, 1⟩, ⟨2, 0, 0, 0, 0, 2⟩, 0x8863, 1, 1, 0x07, 0, 0⟩,
         ⟨⟨2, 0, 0, 0, 0, 1⟩, ⟨2, 0, 0, 0, 0, 2⟩, 0x8863, 1, 1, 0x65, 0x1234, 0⟩]
      = (⟨phase.CRASHED, ⟨2, 0, 0, 0, 0, 1⟩, ⟨0, 0, 0, 0, 0, 0⟩, 0⟩, [action.crash]) ∧
    main_frames false true (main_start ⟨2, 0, 0, 0, 0, 1⟩).1
        [⟨⟨2, 0, 0, 0, 0, 1⟩, ⟨2, 0, 0, 0, 0, 2⟩, 0x8863, 1, 1, 0x07, 0, 0⟩,
         ⟨⟨2, 0, 0, 0, 0, 1⟩, ⟨2, 0, 0, 0, 0, 3⟩, 0x8863, 1, 1, 0x07, 0, 0⟩,
         ⟨⟨2, 0, 0, 0, 0, 1⟩, ⟨2, 0, 0, 0, 0, 2⟩, 0x8863, 1, 1, 0x65, 0x1234, 0⟩]
      = (⟨phase.CRASHED, ⟨2, 0, 0, 0, 0, 1⟩, ⟨2, 0, 0, 0, 0, 2⟩, 0⟩,
          [action.send ⟨⟨⟨2, 0, 0, 0, 0, 2⟩, ⟨2, 0, 0, 0, 0, 1⟩, 0x8863, 1, 1, 0x19, 0, 4⟩,
            [0x01, 0x01, 0x00, 0x00] ++ List.replicate 14 0⟩ 38,
           action.crash]) := by
  decide

/-- C8 (PADT while waiting for an offer), the code at a failing input.  In the loop that
waits for PADO, with local MAC 02:00:00:00:00:01, a frame from 02:00:00:00:00:02 with code
PADT (0xa7) ends the loop like a PADO: `main` records that source as the AC MAC, sends it
a PADR and goes on to wait for PADS; it does not exit.  No log call lies on this path, so
this holds whether or not `log_file` is open. -/
theorem wait_pado_padt_sends_padr :
    ∀ log_open : Bool,
      main_step log_open true ⟨phase.WAIT_PADO, ⟨2, 0, 0, 0, 0, 1⟩, ⟨0, 0, 0, 0, 0, 0⟩, 0⟩ ⟨⟨2, 0, 0, 0, 0, 1⟩, ⟨2, 0, 0, 0, 0, 2⟩, 0x8863, 1, 1, 0xa7, 0, 0⟩
        = (⟨phase.WAIT_PADS, ⟨2, 0, 0, 0, 0, 1⟩, ⟨2, 0, 0, 0, 0, 2⟩, 0⟩,
            [action.send ⟨⟨⟨2, 0, 0, 0, 0, 2⟩, ⟨2, 0, 0, 0, 0, 1⟩, 0x8863, 1, 1, 0x19, 0, 4⟩,
            [0x01, 0x01, 0x00, 0x00] ++ List.replicate 14 0⟩ 38]) := by
  decide

/-- C9 (unexpected code while waiting for confirmation), the code at a failing input.  In
the loop that waits for PADS, with AC MAC 02:00:00:00:00:02, a frame from that MAC with
code 0xAA (neither PADS nor PADT) and session field 0x5555 ends the loop: `main` records
0x5555 as the session and goes on to RUN.  No log call lies on this path, so this holds
whether or not `log_file` is open. -/
theorem wait_pads_other_code_runs :
    ∀ log_open : Bool,
      main_step log_open true ⟨phase.WAIT_PADS, ⟨2, 0, 0, 0, 0, 1⟩, ⟨2, 0, 0, 0, 0, 2⟩, 0⟩ ⟨⟨2, 0, 0, 0, 0, 1⟩, ⟨2, 0, 0, 0, 0, 2⟩, 0x8863, 1, 1, 0xAA, 0x5555, 0⟩
        = (⟨phase.RUN, ⟨2, 0, 0, 0, 0, 1⟩, ⟨2, 0, 0, 0, 0, 2⟩, 0x5555⟩,
            [action.open_sess, action.fork_sess_handler, action.fork_pppd_handler]) := by
  decide

/-! ## Tolerant modes, bounds and the remaining Discovery properties -/

/-- C11 (always-forward mode), the code at every input.  With `opt_fwd` set and
`opt_fwd_search` clear, `create_sess` enters its guard and, as no search is asked for,
returns 0 through the `invalid data` branch: every buffer is dropped, whatever its first
octet, and no frame is built. -/
theorem create_sess_always_forward_drops (packet_null : Bool) (src dst : MAC)
    (buf : Nat → Nat) (bufsize : Int) (sess : Nat) :
    create_sess true false packet_null src dst buf bufsize sess = sess_result.zero ∧
    (create_sess true false packet_null src dst buf bufsize sess).ret = 0 := by
  have h : create_sess true false packet_null src dst buf bufsize sess = sess_result.zero := by
    unfold create_sess
    simp
  rw [h]
  exact ⟨rfl, rfl⟩

/-- C14 (exit status on PADT).  While `main` waits for PADS, a PADT frame from the AC MAC
ends it through `cleanup_and_exit(0)`, with no call that opens the session socket and no
fork; in RUN a PADT frame read from the discovery socket ends it through
`cleanup_and_exit(1)`, and a frame with any other code leaves it in RUN with nothing
done.  No log call lies on these paths, so this holds whether or not `log_file` is
open. -/
theorem padt_exit_status (log_open open_ok : Bool) (L A : MAC) (n : Nat)
    (p1 p2 p3 : pppoe_packet)
    (h1 : p1.h_source = A ∧ p1.code = CODE_PADT)
    (h2 : p2.code = CODE_PADT)
    (h3 : p3.code ≠ CODE_PADT) :
    main_step log_open open_ok ⟨phase.WAIT_PADS, L, A, n⟩ p1
      = (⟨phase.EXITED 0, L, A, n⟩, [action.exit 0]) ∧
    main_step log_open open_ok ⟨phase.RUN, L, A, n⟩ p2
      = (⟨phase.EXITED 1, L, A, n⟩, [action.exit 1]) ∧
    main_step log_open open_ok ⟨phase.RUN, L, A, n⟩ p3 = (⟨phase.RUN, L, A, n⟩, []) := by
  obtain ⟨hsrc, hcode⟩ := h1
  refine ⟨?_, ?_, ?_⟩
  · unfold main_step
    simp [hsrc, hcode]
  · unfold main_step
    simp [h2]
  · unfold main_step
    simp [h3]

theorem padt_exit_status_witness :
    main_step false true ⟨phase.WAIT_PADS, ⟨2, 0, 0, 0, 0, 1⟩, ⟨2, 0, 0, 0, 0, 2⟩, 0⟩
        ⟨⟨2, 0, 0, 0, 0, 1⟩, ⟨2, 0, 0, 0, 0, 2⟩, 0x8863, 1, 1, 0xa7, 0, 0⟩
      = (⟨phase.EXITED 0, ⟨2, 0, 0, 0, 0, 1⟩, ⟨2, 0, 0, 0, 0, 2⟩, 0⟩, [action.exit 0]) ∧
    main_step false true ⟨phase.RUN, ⟨2, 0, 0, 0, 0, 1⟩, ⟨2, 0, 0, 0, 0, 2⟩, 0⟩
        ⟨⟨2, 0, 0, 0, 0, 1⟩, ⟨2, 0, 0, 0, 0, 2⟩, 0x8863, 1, 1, 0xa7, 0x1234, 0⟩
      = (⟨phase.EXITED 1, ⟨2, 0, 0, 0, 0, 1⟩, ⟨2, 0, 0, 0, 0, 2⟩, 0⟩, [action.exit 1]) ∧
    main_step false true ⟨phase.RUN, ⟨2, 0, 0, 0, 0, 1⟩, ⟨2, 0, 0, 0, 0, 2⟩, 0⟩
        ⟨⟨2, 0, 0, 0, 0, 1⟩, ⟨2, 0, 0, 0, 0, 2⟩, 0x8863, 1, 1, 0x07, 0, 0⟩
      = (⟨phase.RUN, ⟨2, 0, 0, 0, 0, 1⟩, ⟨2, 0, 0, 0, 0, 2⟩, 0⟩, []) :=
  padt_exit_status false true ⟨2, 0, 0, 0, 0, 1⟩ ⟨2, 0, 0, 0, 0, 2⟩ 0
    ⟨⟨2, 0, 0, 0, 0, 1⟩, ⟨2, 0, 0, 0, 0, 2⟩, 0x8863, 1, 1, 0xa7, 0, 0⟩
    ⟨⟨2, 0, 0, 0, 0, 1⟩, ⟨2, 0, 0, 0, 0, 2⟩, 0x8863, 1, 1, 0xa7, 0x1234, 0⟩
    ⟨⟨2, 0, 0, 0, 0, 1⟩, ⟨2, 0, 0, 0, 0, 2⟩, 0x8863, 1, 1, 0x07, 0, 0⟩
    (by decide) (by decide) (by decide)

/-- C16 (Length-field invariant), the code at a failing input.  On a buffer that holds
the single octet FLAG, with both switches off, `create_sess` runs no pass of its loop,
computes the payload length `0 - 2 = -2`, returns `20 - 2 = 18` and stores 0xFFFE in the
Length field; the count it hands to `memcpy` is `-2`. -/
theorem create_sess_lone_flag :
    create_sess false false false ⟨2, 0, 0, 0, 0, 1⟩ ⟨2, 0, 0, 0, 0, 2⟩
        (mem [0x7E] (fun _ => 0)) 1 0x1234
      = sess_result.built 18
          (sess_header ⟨2, 0, 0, 0, 0, 1⟩ ⟨2, 0, 0, 0, 0, 2⟩ 0x1234 0xFFFE) (-2) [] := by
  rfl

/-- C17 (PADR is PADI readdressed, plus padding).  For every source MAC, AC MAC and
optional service name (absent counts as empty), `create_padi` and `create_padr` return
the same size `24 + |name|`; both write src, EtherType 0x8863, version 1, type 1,
Session-ID 0, the same Length and the same Service-Name tag, `create_padr` with dst = AC
MAC and code 0x19 where `create_padi` has the broadcast address and code 0x09, and
`create_padr` leaves 14 zero octets right after its `size` octets.  On a PADO, `main`
builds the PADR for the PADO's source with no name (size 24) and sends `24 + 14` octets:
the header, the 4-octet tag and the 14 zero octets. -/
theorem create_padr_readdressed (src dst : MAC) (name : Option (List Nat))
    (log_open open_ok : Bool)
    (L d0 : MAC) (n : Nat) (p : pppoe_packet) (hp : p.code = CODE_PADO) :
    create_padi false src name
      = (24 + (name.getD []).length,
          some ⟨⟨⟨0xff, 0xff, 0xff, 0xff, 0xff, 0xff⟩, src, 0x8863, 1, 1, 0x09, 0,
              (4 + (name.getD []).length) % 65536⟩,
            [0x01, 0x01] ++ be16 ((name.getD []).length % 65536) ++ name.getD []⟩) ∧
    create_padr false src dst name
      = (24 + (name.getD []).length,
          some ⟨⟨dst, src, 0x8863, 1, 1, 0x19, 0, (4 + (name.getD []).length) % 65536⟩,
            [0x01, 0x01] ++ be16 ((name.getD []).length % 65536) ++ name.getD []
              ++ List.replicate 14 0⟩) ∧
    main_step log_open open_ok ⟨phase.WAIT_PADO, L, d0, n⟩ p
      = (⟨phase.WAIT_PADS, L, p.h_source, n⟩,
          [action.send ⟨⟨p.h_source, L, 0x8863, 1, 1, 0x19, 0, 4⟩,
            [0x01, 0x01, 0x00, 0x00] ++ List.replicate 14 0⟩ (24 + 14)]) ∧
    create_padr false L p.h_source none
      = (24, some ⟨⟨p.h_source, L, 0x8863, 1, 1, 0x19, 0, 4⟩,
            [0x01, 0x01, 0x00, 0x00] ++ List.replicate 14 0⟩) ∧
    sizeof_pppoe_packet + ([0x01, 0x01, 0x00, 0x00] ++ List.replicate 14 0).length
      = 24 + 14 := by
  refine ⟨?_, ?_, ?_, rfl, rfl⟩
  · cases name with
    | none => rfl
    | some nm =>
      simp only [create_padi, Option.getD_some, sizeof_pppoe_packet, sizeof_pppoe_tag, htons,
        MAC_BCAST_ADDR, ETH_P_PPPOE_DISC, CODE_PADI, TAG_SERVICE_NAME]
      have hl : (24 + nm.length - 20) % 65536 = (4 + nm.length) % 65536 := by omega
      simp [be16, hl]
  · cases name with
    | none => rfl
    | some nm =>
      simp only [create_padr, Option.getD_some, sizeof_pppoe_packet, sizeof_pppoe_tag, htons,
        ETH_P_PPPOE_DISC, CODE_PADR, TAG_SERVICE_NAME]
      have hl : (24 + nm.length - 20) % 65536 = (4 + nm.length) % 65536 := by omega
      simp [be16, hl]
  · have hno : ¬ (p.code ≠ CODE_PADO ∧ p.code ≠ CODE_PADT) := fun h => h.1 hp
    unfold main_step
    simp only [if_neg hno]
    rfl

theorem create_padr_readdressed_witness :
    create_padi false ⟨2, 0, 0, 0, 0, 1⟩ (some [0x69, 0x73, 0x70])
      = (24 + ((some [0x69, 0x73, 0x70] : Option (List Nat)).getD []).length,
          some ⟨⟨⟨0xff, 0xff, 0xff, 0xff, 0xff, 0xff⟩, ⟨2, 0, 0, 0, 0, 1⟩, 0x8863, 1, 1,
              0x09, 0, (4 + ((some [0x69, 0x73, 0x70] : Option (List Nat)).getD []).length)
                % 65536⟩,
            [0x01, 0x01]
              ++ be16 (((some [0x69, 0x73, 0x70] : Option (List Nat)).getD []).length % 65536)
              ++ (some [0x69, 0x73, 0x70] : Option (List Nat)).getD []⟩) ∧
    create_padr false ⟨2, 0, 0, 0, 0, 1⟩ ⟨2, 0, 0, 0, 0, 2⟩ (some [0x69, 0x73, 0x70])
      = (24 + ((some [0x69, 0x73, 0x70] : Option (List Nat)).getD []).length,
          some ⟨⟨⟨2, 0, 0, 0, 0, 2⟩, ⟨2, 0, 0, 0, 0, 1⟩, 0x8863, 1, 1, 0x19, 0,
              (4 + ((some [0x69, 0x73, 0x70] : Option (List Nat)).getD []).length) % 65536⟩,
            [0x01, 0x01]
              ++ be16 (((some [0x69, 0x73, 0x70] : Option (List Nat)).getD []).length % 65536)
              ++ (some [0x69, 0x73, 0x70] : Option (List Nat)).getD []
              ++ List.replicate 14 0⟩) ∧
    main_step false true ⟨phase.WAIT_PADO, ⟨2, 0, 0, 0, 0, 1⟩, ⟨0, 0, 0, 0, 0, 0⟩, 0⟩
        ⟨⟨2, 0, 0, 0, 0, 1⟩, ⟨2, 0, 0, 0, 0, 2⟩, 0x8863, 1, 1, 0x07, 0, 0⟩
      = (⟨phase.WAIT_PADS, ⟨2, 0, 0, 0, 0, 1⟩,
            (⟨⟨2, 0, 0, 0, 0, 1⟩, ⟨2, 0, 0, 0, 0, 2⟩, 0x8863, 1, 1, 0x07, 0, 0⟩
              : pppoe_packet).h_source, 0⟩,
          [action.send ⟨⟨(⟨⟨2, 0, 0, 0, 0, 1⟩, ⟨2, 0, 0, 0, 0, 2⟩, 0x8863, 1, 1, 0x07, 0, 0⟩
              : pppoe_packet).h_source, ⟨2, 0, 0, 0, 0, 1⟩, 0x8863, 1, 1, 0x19, 0, 4⟩,
            [0x01, 0x01, 0x00, 0x00] ++ List.replicate 14 0⟩ (24 + 14)]) ∧
    create_padr false ⟨2, 0, 0, 0, 0, 1⟩
        (⟨⟨2, 0, 0, 0, 0, 1⟩, ⟨2, 0, 0, 0, 0, 2⟩, 0x8863, 1, 1, 0x07, 0, 0⟩
          : pppoe_packet).h_source none
      = (24, some ⟨⟨(⟨⟨2, 0, 0, 0, 0, 1⟩, ⟨2, 0, 0, 0, 0, 2⟩, 0x8863, 1, 1, 0x07, 0, 0⟩
              : pppoe_packet).h_source, ⟨2, 0, 0, 0, 0, 1⟩, 0x8863, 1, 1, 0x19, 0, 4⟩,
            [0x01, 0x01, 0x00, 0x00] ++ List.replicate 14 0⟩) ∧
    sizeof_pppoe_packet + ([0x01, 0x01, 0x00, 0x00] ++ List.replicate 14 0).length
      = 24 + 14 :=
  create_padr_readdressed ⟨2, 0, 0, 0, 0, 1⟩ ⟨2, 0, 0, 0, 0, 2⟩ (some [0x69, 0x73, 0x70]) false
    true
    ⟨2, 0, 0, 0, 0, 1⟩ ⟨0, 0, 0, 0, 0, 0⟩ 0
    ⟨⟨2, 0, 0, 0, 0, 1⟩, ⟨2, 0, 0, 0, 0, 2⟩, 0x8863, 1, 1, 0x07, 0, 0⟩ (by decide)

/-- C18 (malformed frames), the claim at a failing input.  While `main` waits for PADO
(default configuration), a frame with version 2 (type 1, EtherType 0x8863, code PADO,
source 02:00:00:00:00:02) is delivered on the Discovery handle and taken as the offer:
the state changes to waiting for PADS with that source as AC MAC, and a PADR is sent; the
state is not the one before and a frame is emitted. -/
theorem malformed_pado_is_accepted :
    (⟨⟨2, 0, 0, 0, 0, 1⟩, ⟨2, 0, 0, 0, 0, 2⟩, 0x8863, 2, 1, 0x07, 0, 0⟩ : pppoe_packet).ver ≠ 1 ∧
    main_recv false true ⟨phase.WAIT_PADO, ⟨2, 0, 0, 0, 0, 1⟩, ⟨0, 0, 0, 0, 0, 0⟩, 0⟩ ⟨⟨2, 0, 0, 0, 0, 1⟩, ⟨2, 0, 0, 0, 0, 2⟩, 0x8863, 2, 1, 0x07, 0, 0⟩
      = (⟨phase.WAIT_PADS, ⟨2, 0, 0, 0, 0, 1⟩, ⟨2, 0, 0, 0, 0, 2⟩, 0⟩,
          [action.send ⟨⟨⟨2, 0, 0, 0, 0, 2⟩, ⟨2, 0, 0, 0, 0, 1⟩, 0x8863, 1, 1, 0x19, 0, 4⟩,
            [0x01, 0x01, 0x00, 0x00] ++ List.replicate 14 0⟩ 38]) ∧
    main_recv false true ⟨phase.WAIT_PADO, ⟨2, 0, 0, 0, 0, 1⟩, ⟨0, 0, 0, 0, 0, 0⟩, 0⟩ ⟨⟨2, 0, 0, 0, 0, 1⟩, ⟨2, 0, 0, 0, 0, 2⟩, 0x8863, 2, 1, 0x07, 0, 0⟩
      ≠ (⟨phase.WAIT_PADO, ⟨2, 0, 0, 0, 0, 1⟩, ⟨0, 0, 0, 0, 0, 0⟩, 0⟩, []) := by
  decide

/-- C18 as amended.  A frame whose EtherType is not 0x8863 never reaches the loops of
`main`: the Discovery handle does not deliver it, so the state after the frame is the
state before it and nothing is emitted, whatever its code and source MAC.  The version
and type fields are not examined: a frame is handled exactly as the same frame with
version 1 and type 1. -/
theorem malformed_frames_handling (log_open open_ok : Bool) (s : main_state)
    (p q : pppoe_packet) (hp : p.h_proto ≠ 0x8863) :
    main_recv log_open open_ok s p = (s, []) ∧
    main_recv log_open open_ok s q
      = main_recv log_open open_ok s { q with ver := 1, type := 1 } := by
  constructor
  · have hnd : disc_delivers p = false := by
      unfold disc_delivers
      exact decide_eq_false hp
    unfold main_recv
    rw [hnd]
    rfl
  · rfl

theorem malformed_frames_handling_witness :
    main_recv false true ⟨phase.WAIT_PADO, ⟨2, 0, 0, 0, 0, 1⟩, ⟨0, 0, 0, 0, 0, 0⟩, 0⟩ ⟨⟨2, 0, 0, 0, 0, 1⟩, ⟨2, 0, 0, 0, 0, 2⟩, 0x8864, 1, 1, 0x07, 0, 0⟩
      = (⟨phase.WAIT_PADO, ⟨2, 0, 0, 0, 0, 1⟩, ⟨0, 0, 0, 0, 0, 0⟩, 0⟩, []) ∧
    main_recv false true ⟨phase.WAIT_PADO, ⟨2, 0, 0, 0, 0, 1⟩, ⟨0, 0, 0, 0, 0, 0⟩, 0⟩ ⟨⟨2, 0, 0, 0, 0, 1⟩, ⟨2, 0, 0, 0, 0, 2⟩, 0x8863, 2, 7, 0x07, 0, 0⟩
      = main_recv false true ⟨phase.WAIT_PADO, ⟨2, 0, 0, 0, 0, 1⟩, ⟨0, 0, 0, 0, 0, 0⟩, 0⟩
          { (⟨⟨2, 0, 0, 0, 0, 1⟩, ⟨2, 0, 0, 0, 0, 2⟩, 0x8863, 2, 7, 0x07, 0, 0⟩ : pppoe_packet) with ver := 1, type := 1 } :=
  malformed_frames_handling false true ⟨phase.WAIT_PADO, ⟨2, 0, 0, 0, 0, 1⟩, ⟨0, 0, 0, 0, 0, 0⟩, 0⟩
    ⟨⟨2, 0, 0, 0, 0, 1⟩, ⟨2, 0, 0, 0, 0, 2⟩, 0x8864, 1, 1, 0x07, 0, 0⟩
    ⟨⟨2, 0, 0, 0, 0, 1⟩, ⟨2, 0, 0, 0, 0, 2⟩, 0x8863, 2, 7, 0x07, 0, 0⟩ (by decide)

/-! ## Search for a FLAG -/

theorem search_flag_no_flag (buf : Nat → Nat) :
    ∀ (fuel p bs : Nat), (∀ j, j < bs → buf (p + j) ≠ FRAME_FLAG) → bs < fuel →
      (search_flag buf fuel p (bs : Int)).2 = 0 := by
  intro fuel
  induction fuel with
  | zero => intro p bs _ h; omega
  | succ f ih =>
    intro p bs hno hlt
    rw [search_flag]
    cases bs with
    | zero => simp
    | succ b =>
      have h0 : buf p ≠ FRAME_FLAG := by simpa using hno 0 (by omega)
      have hb : (((b + 1 : Nat) : Int)) ≠ 0 := by omega
      rw [if_pos ⟨h0, hb⟩]
      have hcast : (((b + 1 : Nat) : Int)) - 1 = ((b : Nat) : Int) := by omega
      rw [hcast]
      apply ih (p + 1) b
      · intro j hj
        have := hno (j + 1) (by omega)
        rw [show p + (j + 1) = p + 1 + j by omega] at this
        exact this
      · omega

/-- The part of C12 on buffers without a FLAG: with search-for-flag on and always-forward
off, a non-empty buffer whose first octet is not ADDR and that holds no FLAG makes
`create_sess` return 0, whatever the memory behind the data holds. -/
theorem create_sess_search_no_flag (packet_null : Bool) (src dst : MAC) (sess : Nat)
    (X : List Nat) (rest : Nat → Nat) (hX : X ≠ [])
    (haddr : X.head hX ≠ FRAME_ADDR) (hno : ∀ c ∈ X, c ≠ FRAME_FLAG) :
    create_sess false true packet_null src dst (mem X rest) ((X.length : Nat) : Int) sess
      = sess_result.zero := by
  have hpos : 0 < X.length := List.length_pos.mpr hX
  have h0 : mem X rest 0 = X.head hX := by
    rw [mem_of_lt _ _ 0 hpos]
    cases X with
    | nil => exact absurd rfl hX
    | cons x xs => rfl
  have hflag : X.head hX ≠ FRAME_FLAG := hno _ (List.head_mem hX)
  have hguard : (false = true) ∨ ¬ (mem X rest 0 = FRAME_FLAG ∨ mem X rest 0 = FRAME_ADDR) := by
    right
    rw [h0]
    intro h
    rcases h with h | h
    · exact hflag h
    · exact haddr h
  have hs : (search_flag (mem X rest) (((X.length : Nat) : Int).toNat + 1) 0
      ((X.length : Nat) : Int)).2 = 0 := by
    apply search_flag_no_flag
    · intro j hj
      rw [Nat.zero_add, mem_of_lt _ _ j hj, List.getD_eq_getElem X 0 hj]
      exact hno _ (List.getElem_mem hj)
    · rw [Int.toNat_ofNat]; omega
  unfold create_sess
  rw [if_pos hguard]
  simp only [if_true, hs]

/-- C12 (search-for-flag idempotence), the code at a failing input.  The buffer is one
stray octet followed by the frame `7E FF 7D 23 C0 21 01 01 00 04 D1 B5 7E`, so its first
FLAG is at offset 1.  With search-for-flag on, `create_sess` on the whole buffer builds a
payload of 7 octets that ends with the first FCS octet, while on the suffix from offset 1
it builds the 6-octet payload `C0 21 01 01 00 04`. -/
theorem create_sess_search_off_by_one :
    create_sess false true false ⟨2, 0, 0, 0, 0, 1⟩ ⟨2, 0, 0, 0, 0, 2⟩
        (mem [0x41, 0x7E, 0xFF, 0x7D, 0x23, 0xC0, 0x21, 0x01, 0x01, 0x00, 0x04, 0xD1, 0xB5, 0x7E]
          (fun _ => 0)) 14 0x1234
      = sess_result.built 27 (sess_header ⟨2, 0, 0, 0, 0, 1⟩ ⟨2, 0, 0, 0, 0, 2⟩ 0x1234 7) 7
          [0xC0, 0x21, 0x01, 0x01, 0x00, 0x04, 0xD1] ∧
    create_sess false true false ⟨2, 0, 0, 0, 0, 1⟩ ⟨2, 0, 0, 0, 0, 2⟩
        (mem [0x7E, 0xFF, 0x7D, 0x23, 0xC0, 0x21, 0x01, 0x01, 0x00, 0x04, 0xD1, 0xB5, 0x7E]
          (fun _ => 0)) 13 0x1234
      = sess_result.built 26 (sess_header ⟨2, 0, 0, 0, 0, 1⟩ ⟨2, 0, 0, 0, 0, 2⟩ 0x1234 6) 6
          [0xC0, 0x21, 0x01, 0x01, 0x00, 0x04] := by
  exact ⟨rfl, rfl⟩

/-! ## Sizes against the buffers -/

theorem hdlc_escape_nil_mask (Y : List Nat) (h : ∀ c ∈ Y, c ≠ 0x7D) :
    hdlc_escape [] Y = Y := by
  induction Y with
  | nil => rfl
  | cons c cs ih =>
    have hc : c ≠ 0x7D := h c (List.mem_cons_self c cs)
    have hno : ¬ (([] : List Bool).headD false = true ∨ c = 0x7D) := by
      intro h2
      rcases h2 with h2 | h2
      · exact Bool.noConfusion h2
      · exact hc h2
    rw [hdlc_escape, if_neg hno]
    have ht : ([] : List Bool).tail = [] := rfl
    rw [ht, ih (fun d hd => h d (List.mem_cons_of_mem c hd))]
    rfl

/-- C13 (oversized payload), the code at a failing input.  The buffer holds 4096 octets:
`7E FF 7D 23`, 4089 octets 0x41, two FCS octets and a closing FLAG.  `create_sess` does
not return 0: it builds a frame with a payload of 4089 octets, more than `MAX_PAYLOAD`,
and returns the size 4109, more than `PACKETBUF`. -/
theorem create_sess_oversized :
    ([0x7E, 0xFF, 0x7D, 0x23] ++ (List.replicate 4089 0x41 ++ [0x00, 0x00]) ++ [0x7E]).length
      = PACKETBUF ∧
    create_sess false false false ⟨2, 0, 0, 0, 0, 1⟩ ⟨2, 0, 0, 0, 0, 2⟩
        (mem ([0x7E, 0xFF, 0x7D, 0x23] ++ (List.replicate 4089 0x41 ++ [0x00, 0x00]) ++ [0x7E])
          (fun _ => 0)) 4096 0x1234
      = sess_result.built 4109 (sess_header ⟨2, 0, 0, 0, 0, 1⟩ ⟨2, 0, 0, 0, 0, 2⟩ 0x1234 4089)
          4089 (List.replicate 4089 0x41) ∧
    MAX_PAYLOAD < 4089 ∧ PACKETBUF < 4109 := by
  have hlen : ([0x7E, 0xFF, 0x7D, 0x23] ++ (List.replicate 4089 0x41 ++ [0x00, 0x00])
      ++ [0x7E]).length = 4096 := by
    simp only [List.length_append, List.length_cons, List.length_nil, List.length_replicate]
  have hesc : hdlc_escape [] (List.replicate 4089 0x41 ++ [0x00, 0x00])
      = List.replicate 4089 0x41 ++ [0x00, 0x00] := by
    apply hdlc_escape_nil_mask
    intro c hc
    rw [List.mem_append] at hc
    rcases hc with hc | hc
    · rw [List.eq_of_mem_replicate hc]; decide
    · simp only [List.mem_cons, List.mem_singleton, List.not_mem_nil, or_false] at hc
      omega
  have hQ : (List.replicate 4089 0x41 : List Nat).length = 4089 := List.length_replicate _ _
  have hbuild := create_sess_build_carries ⟨2, 0, 0, 0, 0, 1⟩ ⟨2, 0, 0, 0, 0, 2⟩ 0x1234
    [0x7E, 0xFF, 0x7D, 0x23] [] (List.replicate 4089 0x41) 0x00 0x00 0x7E (fun _ => 0) rfl
    (by rw [hQ]; norm_num)
  rw [hesc, hlen, hQ] at hbuild
  have h0 : mem ([0x7E, 0xFF, 0x7D, 0x23] ++ (List.replicate 4089 0x41 ++ [0x00, 0x00])
      ++ [0x7E]) (fun _ => 0) 0 = FRAME_FLAG := by
    rw [mem_of_lt _ _ 0 (by rw [hlen]; norm_num)]
    rfl
  refine ⟨hlen, ?_, by decide, by decide⟩
  rw [create_sess_no_fwd false false _ _ _ _ _ (Or.inl h0)]
  exact hbuild

theorem encode_ppp_length_ge (first : Nat) (P : List Nat) :
    P.length + 6 ≤ (encode_ppp first P).1.length := by
  have h := hdlc_escape_length_ge
    (stuff_mask (P ++ [encode_ppp_fcs P &&& 0x00ff, (encode_ppp_fcs P >>> 8) &&& 0x00ff]))
    (P ++ [encode_ppp_fcs P &&& 0x00ff, (encode_ppp_fcs P >>> 8) &&& 0x00ff])
  rw [encode_ppp_out]
  simp only [List.length_append, List.length_cons, List.length_nil] at h ⊢
  split <;> simp <;> omega

theorem encode_loop_length_all_escaped (Y : List Nat)
    (h : ∀ c ∈ Y, c = FRAME_FLAG ∨ c = FRAME_ESC ∨ c < 0x20) :
    (encode_loop Y).length = 2 * Y.length := by
  induction Y with
  | nil => rfl
  | cons c cs ih =>
    rw [encode_loop, if_pos (h c (List.mem_cons_self c cs)), List.length_append,
      ih (fun d hd => h d (List.mem_cons_of_mem c hd))]
    simp only [List.length_cons, List.length_nil]
    omega

/-- The first half of C19: for every payload `encode_ppp` stores at most `2·len + 9`
octets, and on a first call (`first` 0) it stores exactly that many when every payload
octet and both FCS octets need escaping. -/
theorem encode_ppp_length_bound (first : Nat) (P : List Nat) :
    (encode_ppp first P).1.length ≤ 2 * P.length + 9 ∧
    (first = 0 →
      (∀ c ∈ P ++ [encode_ppp_fcs P &&& 0x00ff, (encode_ppp_fcs P >>> 8) &&& 0x00ff],
        c = FRAME_FLAG ∨ c = FRAME_ESC ∨ c < 0x20) →
      (encode_ppp first P).1.length = 2 * P.length + 9) := by
  refine ⟨encode_ppp_length_le first P, ?_⟩
  intro hf hall
  have h1 := encode_loop_length_all_escaped P (fun c hc => hall c (List.mem_append_left _ hc))
  have h2 := encode_loop_length_all_escaped
    [encode_ppp_fcs P &&& 0x00ff, (encode_ppp_fcs P >>> 8) &&& 0x00ff]
    (fun c hc => hall c (List.mem_append_right _ hc))
  simp only [encode_ppp, hf, if_true, List.length_append, List.length_cons, List.length_nil,
    h1, h2]
  omega

theorem encode_ppp_length_bound_witness :
    (encode_ppp 0 [0x00, 0x0c]).1.length ≤ 2 * ([0x00, 0x0c] : List Nat).length + 9 ∧
    ((0 : Nat) = 0 →
      (∀ c ∈ [0x00, 0x0c] ++ [encode_ppp_fcs [0x00, 0x0c] &&& 0x00ff,
          (encode_ppp_fcs [0x00, 0x0c] >>> 8) &&& 0x00ff],
        c = FRAME_FLAG ∨ c = FRAME_ESC ∨ c < 0x20) →
      (encode_ppp 0 [0x00, 0x0c]).1.length = 2 * ([0x00, 0x0c] : List Nat).length + 9) ∧
    (encode_ppp 0 [0x00, 0x0c]).1.length = 13 :=
  ⟨(encode_ppp_length_bound 0 [0x00, 0x0c]).1, (encode_ppp_length_bound 0 [0x00, 0x0c]).2,
    (encode_ppp_length_bound 0 [0x00, 0x0c]).2 rfl (by decide)⟩

/-- C19 (encoder output fits its buffer), the code at a failing input.  A Session frame
from the AC MAC with the learned session, EtherType 0x8864, code 0x00 and Length field
4091 passes every test of `sess_handler` (no log call lies on that path); `encode_ppp`
is then run on 4091 octets and stores more than `PACKETBUF` octets (4097 at least, here
on a later call), although its `out_buf` has `PACKETBUF` octets. -/
theorem sess_handler_overflows_out_buf :
    ∀ log_open : Bool, ∃ out : List Nat,
      sess_handler_pass log_open ⟨2, 0, 0, 0, 0, 2⟩ 0x1234 1
          ⟨⟨2, 0, 0, 0, 0, 1⟩, ⟨2, 0, 0, 0, 0, 2⟩, 0x8864, 1, 1, 0x00, 0x1234, 4091⟩
          (fun _ => 0x41)
        = ⟨some out, 1, false⟩ ∧
      PACKETBUF < out.length := by
  intro log_open
  refine ⟨(encode_ppp 1 (octets (fun _ => 0x41) 4091)).1, ?_, ?_⟩
  · unfold sess_handler_pass
    rw [if_neg (by decide), if_neg (by decide), if_neg (by decide), if_neg (by decide)]
    rfl
  · have h := encode_ppp_length_ge 1 (octets (fun _ => 0x41) 4091)
    rw [octets_length] at h
    unfold PACKETBUF
    omega

/-! ## The decoder on every accepted buffer -/

theorem unstuff_loop_done (bound : Int) (fuel : Nat) (buf : Nat → Nat) (i o : Nat)
    (h : ¬ (i : Int) < bound) : unstuff_loop bound fuel buf i o = (buf, i, o) := by
  cases fuel with
  | zero => rfl
  | succ f => rw [unstuff_loop, if_neg h]

theorem esc_resolve_cons_ne (t c : Nat) (cs : List Nat) (hc : c ≠ 0x7D) :
    esc_resolve t (c :: cs) = c :: esc_resolve t cs := by
  cases cs with
  | nil => simp [esc_resolve, hc]
  | cons d ds => simp [esc_resolve, hc]

theorem esc_resolve_length_le (t : Nat) :
    ∀ (n : Nat) (R : List Nat), R.length ≤ n → (esc_resolve t R).length ≤ R.length := by
  intro n
  induction n with
  | zero =>
    intro R hR
    have : R = [] := List.length_eq_zero.mp (by omega)
    subst this
    simp [esc_resolve]
  | succ m ih =>
    intro R hR
    cases R with
    | nil => simp [esc_resolve]
    | cons c cs =>
      by_cases hc : c = 0x7D
      · cases cs with
        | nil => simp [esc_resolve, hc]
        | cons d ds =>
          have := ih ds (by simp only [List.length_cons] at hR; omega)
          simp only [esc_resolve, hc, if_true, List.length_cons]
          omega
      · have := ih cs (by simp only [List.length_cons] at hR; omega)
        rw [esc_resolve_cons_ne t c cs hc]
        simp only [List.length_cons]
        omega

/-- The unstuffing loop over any octets: when the octets of `buf` from `i` up to the
bound are `R`, the octet at the bound is `t` and the write index is behind the read
index, the loop (given enough passes) stores `esc_resolve t R` from offset `o` on and
leaves everything before `o` untouched. -/
theorem unstuff_loop_resolve (t : Nat) :
    ∀ (n : Nat) (R : List Nat), R.length ≤ n →
      ∀ (fuel : Nat) (buf : Nat → Nat) (i o : Nat),
        o < i →
        (∀ j, j < R.length → buf (i + j) = R.getD j 0) →
        buf (i + R.length) = t →
        R.length ≤ fuel →
        ∃ (buf1 : Nat → Nat) (i1 : Nat),
          unstuff_loop ((i + R.length : Nat) : Int) fuel buf i o
            = (buf1, i1, o + (esc_resolve t R).length) ∧
          (∀ j, j < (esc_resolve t R).length → buf1 (o + j) = (esc_resolve t R).getD j 0) ∧
          (∀ j, j < o → buf1 j = buf j) := by
  have hnil : ∀ (fuel : Nat) (buf : Nat → Nat) (i o : Nat),
      ∃ (buf1 : Nat → Nat) (i1 : Nat),
        unstuff_loop ((i + ([] : List Nat).length : Nat) : Int) fuel buf i o
          = (buf1, i1, o + (esc_resolve t []).length) ∧
        (∀ j, j < (esc_resolve t []).length → buf1 (o + j) = (esc_resolve t []).getD j 0) ∧
        (∀ j, j < o → buf1 j = buf j) := by
    intro fuel buf i o
    refine ⟨buf, i, ?_, ?_, ?_⟩
    · rw [unstuff_loop_done _ _ _ _ _ (by simp)]
      simp [esc_resolve]
    · intro j hj; simp [esc_resolve] at hj
    · intro j _; rfl
  intro n
  induction n with
  | zero =>
    intro R hR fuel buf i o _ _ _ _
    have : R = [] := List.length_eq_zero.mp (by omega)
    subst this
    exact hnil fuel buf i o
  | succ m ih =>
    intro R hR fuel buf i o hoi hreg hend hfuel
    cases R with
    | nil => exact hnil fuel buf i o
    | cons c cs =>
      simp only [List.length_cons] at hR hreg hend hfuel ⊢
      obtain ⟨f, rfl⟩ : ∃ f, fuel = f + 1 := ⟨fuel - 1, by omega⟩
      have h0 : buf i = c := by simpa using hreg 0 (by omega)
      have hlt : (i : Int) < ((i + (cs.length + 1) : Nat) : Int) := by omega
      by_cases hc : c = 0x7D
      · subst hc
        cases cs with
        | nil =>
          -- an ESC ends the octets: the octet at the bound is taken
          have h1 : buf (i + 1) = t := by simpa using hend
          refine ⟨Function.update buf o (t ^^^ 0x20), i + 2, ?_, ?_, ?_⟩
          · rw [unstuff_loop, if_pos hlt, if_pos (by rw [h0]; rfl), h1]
            rw [unstuff_loop_done _ _ _ _ _ (by simp only [List.length_nil]; omega)]
            simp [esc_resolve, FRAME_ENC]
          · intro j hj
            have hj0 : j = 0 := by simp [esc_resolve] at hj; omega
            subst hj0
            simp [esc_resolve]
          · intro j hj
            rw [Function.update_noteq (by omega)]
        | cons d ds =>
          simp only [List.length_cons] at hR hreg hend hfuel hlt ⊢
          have h1 : buf (i + 1) = d := by simpa using hreg 1 (by omega)
          have hE : esc_resolve t (0x7D :: d :: ds) = (d ^^^ 0x20) :: esc_resolve t ds := by
            simp [esc_resolve]
          obtain ⟨buf1, i1, hrun, hout, hkeep⟩ :=
            ih ds (by omega) f (Function.update buf o (d ^^^ 0x20)) (i + 2) (o + 1) (by omega)
              (by
                intro j hj
                rw [Function.update_noteq (by omega)]
                have := hreg (j + 2) (by omega)
                rw [show i + (j + 2) = i + 2 + j by omega] at this
                simpa using this)
              (by
                rw [Function.update_noteq (by omega)]
                rw [show i + 2 + ds.length = i + (ds.length + 1 + 1) by omega]
                exact hend)
              (by omega)
          refine ⟨buf1, i1, ?_, ?_, ?_⟩
          · rw [unstuff_loop, if_pos hlt, if_pos (by rw [h0]; rfl), h1]
            rw [show i + (ds.length + 1 + 1) = i + 2 + ds.length by omega]
            simp only [FRAME_ENC]
            rw [hrun, hE]
            simp only [List.length_cons, Prod.mk.injEq, true_and]
            omega
          · rw [hE]
            intro j hj
            cases j with
            | zero =>
              have := hkeep o (by omega)
              simpa using this
            | succ k =>
              have := hout k (by simpa using hj)
              rw [show o + (k + 1) = o + 1 + k by omega]
              simpa using this
          · intro j hj
            rw [hkeep j (by omega), Function.update_noteq (by omega)]
      · -- a literal octet
        have hE := esc_resolve_cons_ne t c cs hc
        obtain ⟨buf1, i1, hrun, hout, hkeep⟩ :=
          ih cs (by omega) f (Function.update buf o c) (i + 1) (o + 1) (by omega)
            (by
              intro j hj
              rw [Function.update_noteq (by omega)]
              have := hreg (j + 1) (by omega)
              rw [show i + (j + 1) = i + 1 + j by omega] at this
              simpa using this)
            (by
              rw [Function.update_noteq (by omega)]
              rw [show i + 1 + cs.length = i + (cs.length + 1) by omega]
              exact hend)
            (by omega)
        refine ⟨buf1, i1, ?_, ?_, ?_⟩
        · rw [unstuff_loop, if_pos hlt, if_neg (by rw [h0]; exact hc), h0]
          rw [show i + (cs.length + 1) = i + 1 + cs.length by omega]
          rw [hrun, hE]
          simp only [List.length_cons, Prod.mk.injEq, true_and]
          omega
        · rw [hE]
          intro j hj
          cases j with
          | zero =>
            have := hkeep o (by omega)
            simpa using this
          | succ k =>
            have := hout k (by simpa using hj)
            rw [show o + (k + 1) = o + 1 + k by omega]
            simpa using this
        · intro j hj
          rw [hkeep j (by omega), Function.update_noteq (by omega)]

theorem octets_eq_take (buf : Nat → Nat) (Y : List Nat) (k : Nat) (hk : k ≤ Y.length)
    (h : ∀ j, j < Y.length → buf j = Y.getD j 0) : octets buf k = Y.take k := by
  apply List.ext_getElem
  · simp [octets, Nat.min_eq_left hk]
  · intro j h1 h2
    have hj : j < k := by simpa [octets] using h1
    simp only [octets, List.getElem_map, List.getElem_range, List.getElem_take]
    rw [h j (by omega), List.getD_eq_getElem Y 0 (by omega)]

theorem getD_drop_dropLast (X : List Nat) (start j : Nat)
    (h : j < ((X.drop start).dropLast).length) :
    ((X.drop start).dropLast).getD j 0 = X.getD (start + j) 0 := by
  have h2 : j < (X.drop start).length - 1 := by simpa using h
  have h3 : start + j < X.length := by
    rw [List.length_drop] at h2; omega
  rw [List.getD_eq_getElem _ 0 h, List.getD_eq_getElem _ 0 h3, List.getElem_dropLast,
    List.getElem_drop]

theorem getD_last (X : List Nat) (hX : X ≠ []) : X.getD (X.length - 1) 0 = X.getLastD 0 := by
  have hpos : 0 < X.length := List.length_pos.mpr hX
  rw [List.getD_eq_getElem _ 0 (by omega), List.getLastD_eq_getLast?,
    List.getLast?_eq_getLast _ hX, List.getLast_eq_getElem]
  rfl

/-- C15 as amended.  For every buffer of at most `PACKETBUF` octets that starts with FLAG
or ADDR (so that `create_sess` accepts it without always-forward), `create_sess` skips
the FLAG and the three octets after it, or else the first three octets, copies the
remaining octets up to, but not including, the last octet of the buffer with ESC
sequences resolved (next octet xor 0x20), and, when that copy holds at least two octets,
builds the payload from the copy without its last two octets, which are discarded
without any FCS check; Length and size follow the payload. -/
theorem create_sess_skip_and_strip (src dst : MAC) (sess : Nat) (search : Bool)
    (X : List Nat) (rest : Nat → Nat)
    (hacc : X.headD 0 = FRAME_FLAG ∨ X.headD 0 = FRAME_ADDR)
    (hfit : X.length ≤ PACKETBUF)
    (hD : 2 ≤ (unstuffed X).length) :
    create_sess false search false src dst (mem X rest) ((X.length : Nat) : Int) sess
      = sess_result.built (20 + (((unstuffed X).length - 2 : Nat) : Int))
          (sess_header src dst (sess % 65536) ((unstuffed X).length - 2))
          (((unstuffed X).length - 2 : Nat) : Int)
          ((unstuffed X).take ((unstuffed X).length - 2)) := by
  have hstart : (if X.headD 0 = FRAME_FLAG then 4 else 3) = 3
      ∨ (if X.headD 0 = FRAME_FLAG then 4 else 3) = 4 := by
    split
    · right; rfl
    · left; rfl
  generalize hst : (if X.headD 0 = FRAME_FLAG then 4 else 3) = start at hstart
  have hU : unstuffed X = esc_resolve (X.getLastD 0) ((X.drop start).dropLast) := by
    unfold unstuffed
    rw [hst]
  rw [hU] at hD ⊢
  generalize hR : (X.drop start).dropLast = R at hD ⊢
  have hRlen : R.length = X.length - start - 1 := by
    rw [← hR, List.length_dropLast, List.length_drop]
  have hDle := esc_resolve_length_le (X.getLastD 0) R.length R (Nat.le_refl _)
  have hXlen : start + 3 ≤ X.length := by omega
  have hXne : X ≠ [] := by
    intro h
    rw [h] at hXlen
    simp at hXlen
  have h0 : mem X rest 0 = X.headD 0 := by
    rw [mem_of_lt _ _ 0 (by omega)]
    cases X with
    | nil => exact absurd rfl hXne
    | cons x xs => rfl
  obtain ⟨buf1, i1, hrun, hout, _⟩ :=
    unstuff_loop_resolve (X.getLastD 0) R.length R (Nat.le_refl _) X.length (mem X rest)
      start 0 (by omega)
      (by
        intro j hj
        rw [mem_of_lt _ _ _ (by omega), ← hR]
        exact (getD_drop_dropLast X start j (by rw [hR]; exact hj)).symm)
      (by
        rw [hRlen, mem_of_lt _ _ _ (by omega), show start + (X.length - start - 1)
          = X.length - 1 by omega]
        exact getD_last X hXne)
      (by omega)
  have hrun2 : unstuff_loop (((X.length : Nat) : Int) - 1) ((X.length : Nat) : Int).toNat
      (mem X rest) (if mem X rest 0 = FRAME_FLAG then 4 else 3) 0
      = (buf1, i1, 0 + (esc_resolve (X.getLastD 0) R).length) := by
    rw [h0, hst, Int.toNat_ofNat,
      show ((X.length : Nat) : Int) - 1 = ((start + R.length : Nat) : Int) by omega]
    exact hrun
  rw [create_sess_no_fwd search false src dst _ _ sess (by rw [h0]; exact hacc),
    create_sess_build_of_loop src dst sess _ _ _ _ _ hrun2]
  have hbs : (((0 + (esc_resolve (X.getLastD 0) R).length : Nat) : Int) - 2)
      = (((esc_resolve (X.getLastD 0) R).length - 2 : Nat) : Int) := by omega
  have hpay : octets buf1 ((esc_resolve (X.getLastD 0) R).length - 2)
      = (esc_resolve (X.getLastD 0) R).take ((esc_resolve (X.getLastD 0) R).length - 2) := by
    apply octets_eq_take _ _ _ (by omega)
    intro j hj
    have := hout j hj
    rw [Nat.zero_add] at this
    exact this
  rw [hbs, Int.toNat_ofNat, hpay]
  have hsmall : (esc_resolve (X.getLastD 0) R).length - 2 < 65536 := by
    unfold PACKETBUF at hfit
    omega
  have hl : (((20 : Int) + (((esc_resolve (X.getLastD 0) R).length - 2 : Nat) : Int) - 20)
      % 65536).toNat = (esc_resolve (X.getLastD 0) R).length - 2 := by
    omega
  simp only [hl, htons, Nat.mod_eq_of_lt hsmall]

theorem create_sess_skip_and_strip_witness :
    create_sess false false false ⟨2, 0, 0, 0, 0, 1⟩ ⟨2, 0, 0, 0, 0, 2⟩
        (mem [0x7E, 0xFF, 0x7D, 0x23, 0xC0, 0x21, 0x7D, 0x21, 0x01, 0x00, 0x04, 0xD1, 0xB5, 0x7E]
          (fun _ => 0))
        ((([0x7E, 0xFF, 0x7D, 0x23, 0xC0, 0x21, 0x7D, 0x21, 0x01, 0x00, 0x04, 0xD1, 0xB5, 0x7E]
          : List Nat).length : Nat) : Int) 0x1234
      = sess_result.built (20 + (((unstuffed
            [0x7E, 0xFF, 0x7D, 0x23, 0xC0, 0x21, 0x7D, 0x21, 0x01, 0x00, 0x04, 0xD1, 0xB5,
              0x7E]).length - 2 : Nat) : Int))
          (sess_header ⟨2, 0, 0, 0, 0, 1⟩ ⟨2, 0, 0, 0, 0, 2⟩ (0x1234 % 65536)
            ((unstuffed
              [0x7E, 0xFF, 0x7D, 0x23, 0xC0, 0x21, 0x7D, 0x21, 0x01, 0x00, 0x04, 0xD1, 0xB5,
                0x7E]).length - 2))
          (((unstuffed
            [0x7E, 0xFF, 0x7D, 0x23, 0xC0, 0x21, 0x7D, 0x21, 0x01, 0x00, 0x04, 0xD1, 0xB5,
              0x7E]).length - 2 : Nat) : Int)
          ((unstuffed
            [0x7E, 0xFF, 0x7D, 0x23, 0xC0, 0x21, 0x7D, 0x21, 0x01, 0x00, 0x04, 0xD1, 0xB5,
              0x7E]).take
            ((unstuffed
              [0x7E, 0xFF, 0x7D, 0x23, 0xC0, 0x21, 0x7D, 0x21, 0x01, 0x00, 0x04, 0xD1, 0xB5,
                0x7E]).length - 2)) ∧
    (unstuffed
        [0x7E, 0xFF, 0x7D, 0x23, 0xC0, 0x21, 0x7D, 0x21, 0x01, 0x00, 0x04, 0xD1, 0xB5, 0x7E]).take
      ((unstuffed
        [0x7E, 0xFF, 0x7D, 0x23, 0xC0, 0x21, 0x7D, 0x21, 0x01, 0x00, 0x04, 0xD1, 0xB5,
          0x7E]).length - 2)
      = [0xC0, 0x21, 0x01, 0x01, 0x00, 0x04] :=
  ⟨create_sess_skip_and_strip ⟨2, 0, 0, 0, 0, 1⟩ ⟨2, 0, 0, 0, 0, 2⟩ 0x1234 false
      [0x7E, 0xFF, 0x7D, 0x23, 0xC0, 0x21, 0x7D, 0x21, 0x01, 0x00, 0x04, 0xD1, 0xB5, 0x7E]
      (fun _ => 0) (by decide) (by decide) (by decide),
    by decide⟩

/-- C15 (decoder skip-and-strip rule), the claim at a failing input.  On the buffer
`7E FF 7D 23 C0 21 01 01 00 04 D1 B5 7E` the payload `create_sess` builds is
`C0 21 01 01 00 04`, while the rule of the claim (skip FLAG and two octets, resolve ESC up
to the last two octets of the buffer) gives `23 C0 21 01 01 00 04 D1`. -/
theorem create_sess_not_spec_decode :
    (create_sess false false false ⟨2, 0, 0, 0, 0, 1⟩ ⟨2, 0, 0, 0, 0, 2⟩
        (mem [0x7E, 0xFF, 0x7D, 0x23, 0xC0, 0x21, 0x01, 0x01, 0x00, 0x04, 0xD1, 0xB5, 0x7E]
          (fun _ => 0)) 13 0x1234).payload
      = [0xC0, 0x21, 0x01, 0x01, 0x00, 0x04] ∧
    spec_decode [0x7E, 0xFF, 0x7D, 0x23, 0xC0, 0x21, 0x01, 0x01, 0x00, 0x04, 0xD1, 0xB5, 0x7E]
      = [0x23, 0xC0, 0x21, 0x01, 0x01, 0x00, 0x04, 0xD1] ∧
    (create_sess false false false ⟨2, 0, 0, 0, 0, 1⟩ ⟨2, 0, 0, 0, 0, 2⟩
        (mem [0x7E, 0xFF, 0x7D, 0x23, 0xC0, 0x21, 0x01, 0x01, 0x00, 0x04, 0xD1, 0xB5, 0x7E]
          (fun _ => 0)) 13 0x1234).payload
      ≠ spec_decode
          [0x7E, 0xFF, 0x7D, 0x23, 0xC0, 0x21, 0x01, 0x01, 0x00, 0x04, 0xD1, 0xB5, 0x7E] := by
  decide

end Pppoe
